import Mathlib

/-!
# Verification of the Grug recurring-event occurrence/reminder scheduling engine

Shallow embedding of the scheduling core of the Grug repository:

* the trigger calculator (cron and calendar-interval next-fire computation,
  reminder-offset computation) — the repository delegates these to the external
  `apscheduler` trigger classes, so their semantics are modelled from the spec;
* the occurrence repository (`grug/models_crud.py`,
  `get_or_create_next_game_session_event`);
* the occurrence sync controller (`grug/scheduler.py`, `update_group_schedules`);
* the reminder dispatchers (`grug/utils/food.py`, `grug/utils/attendance.py`,
  and `grug/reminders.py`);
* the per-(event, date) occurrence models (`grug/models.py`: `EventFood`,
  `EventAttendance`, `Event.get_next_food_event`, `Event.get_next_attendance_event`).

Timestamps are modelled at minute granularity as natural numbers counting
minutes since 1970-01-01 00:00 (all triggers in the source fire at whole
minutes).  A calendar date is the day number `t / 1440`; the wall-clock
time-of-day is `t % 1440`.
-/

namespace Grug

/-! ## Time model -/

/-- Minutes per day. -/
def minutesPerDay : Nat := 1440

/-- The calendar day number (days since 1970-01-01) of an instant. -/
def dayOf (t : Nat) : Nat := t / 1440

/-- The time of day, in minutes since midnight, of an instant. -/
def todOf (t : Nat) : Nat := t % 1440

/-- The hour (0–23) of an instant. -/
def hourOf (t : Nat) : Nat := todOf t / 60

/-- The minute within the hour (0–59) of an instant. -/
def minuteOf (t : Nat) : Nat := todOf t % 60

/-- Day of week of an instant, `0` = Sunday.  1970-01-01 was a Thursday. -/
def dowOf (t : Nat) : Nat := (dayOf t + 4) % 7

/-- Civil calendar date `(year, month, day-of-month)` from a day number
(days since 1970-01-01), by the standard era-decomposition algorithm. -/
def civilFromDays (z : Nat) : Nat × Nat × Nat :=
  let z' := z + 719468
  let era := z' / 146097
  let doe := z' % 146097
  let yoe := (doe - doe / 1460 + doe / 36524 - doe / 146096) / 365
  let doy := doe - (365 * yoe + yoe / 4 - yoe / 100)
  let mp := (5 * doy + 2) / 153
  let d := doy - (153 * mp + 2) / 5 + 1
  let m := if mp < 10 then mp + 3 else mp - 9
  (yoe + era * 400 + (if m ≤ 2 then 1 else 0), m, d)

/-- The month (1–12) of an instant. -/
def monthOf (t : Nat) : Nat := (civilFromDays (dayOf t)).2.1

/-- The day of month (1–31) of an instant. -/
def domOf (t : Nat) : Nat := (civilFromDays (dayOf t)).2.2

/-- An instant from a day number and a time of day in minutes. -/
def mkInstant (day tod : Nat) : Nat := day * 1440 + tod

/-! ## Cron rules

Modelled from the spec: the repository computes cron next-fire times through
the external `apscheduler` `CronTrigger` (built by the `Group.game_session_cron_trigger`
property, which is not under `src/`).  Per the spec, a 5-field cron expression
(minute, hour, day-of-month, month, day-of-week; `*`, ranges, steps and lists
all denote sets of allowed values) fires at the next timestamp *strictly after*
the reference matching all five fields. -/

/-- One cron field: `none` is the `*` wildcard, `some vs` the set of allowed
values denoted by a literal, range, step or list. -/
structure CronField where
  values : Option (List Nat)
deriving Repr, DecidableEq

/-- Whether a concrete value matches a cron field. -/
def CronField.fmatches (f : CronField) (n : Nat) : Bool :=
  match f.values with
  | none => true
  | some vs => vs.contains n

/-- A 5-field cron expression. -/
structure Cron where
  minute : CronField
  hour : CronField
  dom : CronField
  month : CronField
  dow : CronField
deriving Repr, DecidableEq

/-- Whether an instant matches all five fields of a cron expression
(day-of-week `0` = Sunday). -/
def Cron.cmatches (c : Cron) (t : Nat) : Bool :=
  c.minute.fmatches (minuteOf t) && c.hour.fmatches (hourOf t)
    && c.dom.fmatches (domOf t) && c.month.fmatches (monthOf t)
    && c.dow.fmatches (dowOf t)

/-- Search for the first instant in the window `[lo, lo + w)` matching the
cron expression, by splitting the window in half; the first argument bounds
the recursion depth (defined this way so that concrete instances evaluate
with logarithmic stack depth). -/
def cronScan (c : Cron) : Nat → Nat → Nat → Option Nat
  | 0, lo, w =>
    if w = 1 then (if c.cmatches lo then some lo else none)
    else if w = 2 then
      (if c.cmatches lo then some lo
        else if c.cmatches (lo + 1) then some (lo + 1) else none)
    else none
  | d + 1, lo, w =>
    if w ≤ 2 then cronScan c d lo w
    else
      match cronScan c d lo (w / 2) with
      | some t => some t
      | none => cronScan c d (lo + w / 2) (w - w / 2)

/-- Search window: 366 days of minutes, enough for any satisfiable standard
cron expression. -/
def cronFuel : Nat := 527040

/-- Next fire time of a cron expression strictly after the reference instant:
the first matching minute in the following 366 days. -/
def cronNext (c : Cron) (ref : Nat) : Option Nat := cronScan c 20 (ref + 1) cronFuel

/-! ## Calendar-interval rules

Modelled from the spec: the repository builds `apscheduler`
`CalendarIntervalTrigger`s (`Event._get_calendar_interval_trigger` in
`grug/models.py`); the trigger fires on the dates `start + k * interval` at a
fixed wall-clock `hour:minute`, clipped to an optional end date.  Per the spec
the next fire time is `start + k * interval` for the smallest `k` making the
result strictly greater than the reference, and `none` past the end boundary.
The interval is `repeat-every-N {days|weeks|months}`: the `days`/`weeks`
components advance the start by the fixed timespan `days + 7 * weeks`, and the
`months` component advances it by calendar months — the start's day-of-month
is kept, clamped to the length of the target month (the spec fixes only the
`start + k * interval` month arithmetic; clamping resolves short target
months). -/

/-- Whether a year of the proleptic Gregorian calendar is a leap year. -/
def isLeap (y : Nat) : Bool :=
  (y % 4 == 0 && !(y % 100 == 0)) || y % 400 == 0

/-- Number of days in a civil month. -/
def daysInMonth (y m : Nat) : Nat :=
  if m = 2 then (if isLeap y then 29 else 28)
  else if m = 4 ∨ m = 6 ∨ m = 9 ∨ m = 11 then 30
  else 31

/-- The calendar month after `(year, month)`. -/
def monthSucc : Nat × Nat → Nat × Nat
  | (y, m) => if m = 12 then (y + 1, 1) else (y, m + 1)

/-- `(year, month)` advanced by `n` calendar months. -/
def monthShift : Nat → Nat × Nat → Nat × Nat
  | 0, ym => ym
  | n + 1, ym => monthShift n (monthSucc ym)

/-- Total day count of the `n` consecutive calendar months starting at
`(year, month)`. -/
def monthSpanDays : Nat → Nat × Nat → Nat
  | 0, _ => 0
  | n + 1, ym => daysInMonth ym.1 ym.2 + monthSpanDays n (monthSucc ym)

/-- A day number advanced by `n` calendar months: the start's day-of-month is
kept, clamped to the length of the target month. -/
def monthAdvance (s : Nat) (n : Nat) : Nat :=
  if n = 0 then s
  else
    let c := civilFromDays s
    let ym' := monthShift n (c.1, c.2.1)
    s - (c.2.2 - 1) + monthSpanDays n (c.1, c.2.1)
      + (min c.2.2 (daysInMonth ym'.1 ym'.2) - 1)

structure CalendarIntervalTrig where
  startDay : Nat
  endDay : Option Nat
  days : Nat
  weeks : Nat
  months : Nat
  hour : Nat
  minute : Nat
deriving Repr, DecidableEq

/-- The day/week component of the interval: the fixed timespan
`days + 7 * weeks`, in days. -/
def CalendarIntervalTrig.intervalDays (tr : CalendarIntervalTrig) : Nat :=
  tr.days + 7 * tr.weeks

/-- The time of day, in minutes, at which a calendar-interval trigger fires. -/
def CalendarIntervalTrig.tod (tr : CalendarIntervalTrig) : Nat :=
  tr.hour * 60 + tr.minute

/-- The day number of the `k`-th fire date: the start advanced by `k`
intervals (the months component by calendar-month arithmetic, the
`days + 7 * weeks` component as a fixed timespan). -/
def CalendarIntervalTrig.fireDay (tr : CalendarIntervalTrig) (k : Nat) : Nat :=
  monthAdvance tr.startDay (k * tr.months) + k * tr.intervalDays

/-- The `k`-th fire instant of a calendar-interval trigger. -/
def CalendarIntervalTrig.fireAt (tr : CalendarIntervalTrig) (k : Nat) : Nat :=
  mkInstant (tr.fireDay k) tr.tod

/-- A lower bound on the day growth of one interval step. -/
def CalendarIntervalTrig.stepLB (tr : CalendarIntervalTrig) : Nat :=
  if tr.months = 0 then tr.intervalDays else 28 * tr.months + tr.intervalDays - 3

/-- First fire index at or after `k` whose fire instant is strictly after the
reference, searching at most `fuel` indices. -/
def calFindK (tr : CalendarIntervalTrig) (ref : Nat) : Nat → Nat → Option Nat
  | _, 0 => none
  | k, fuel + 1 => if ref < tr.fireAt k then some k else calFindK tr ref (k + 1) fuel

/-- Search budget: enough fire indices to pass any reference. -/
def calFuel (tr : CalendarIntervalTrig) (ref : Nat) : Nat :=
  ref / (tr.stepLB * 1440) + 2

/-- Next fire time of a calendar-interval trigger strictly after the
reference, `none` if the trigger's interval is degenerate (no day, week or
month component) or the next fire date lies past the end boundary. -/
def calendarNext (tr : CalendarIntervalTrig) (ref : Nat) : Option Nat :=
  if tr.intervalDays = 0 ∧ tr.months = 0 then none
  else
    match calFindK tr ref 0 (calFuel tr ref) with
    | none => none
    | some k =>
      match tr.endDay with
      | none => some (tr.fireAt k)
      | some e => if tr.fireDay k ≤ e then some (tr.fireAt k) else none

/-! ## The trigger calculator interface -/

/-- A recurrence rule: a cron expression or a calendar interval. -/
inductive RecurrenceRule where
  | cron (c : Cron)
  | calendar (tr : CalendarIntervalTrig)
deriving Repr, DecidableEq

/-- Modelled from the spec: `next_fire_time(rule, reference_time)`, the pure
trigger-calculator entry point (the source delegates it to the external
`apscheduler` triggers). -/
def next_fire_time : RecurrenceRule → Nat → Option Nat
  | RecurrenceRule.cron c, ref => cronNext c ref
  | RecurrenceRule.calendar tr, ref => calendarNext tr ref

/-- Modelled from the spec: `reminder_time(occurrence_time, days_before,
time_of_day)` subtracts `days_before` calendar days from the occurrence's
date and sets the wall-clock time to `time_of_day` (all in the event's local
wall-clock frame). -/
def reminder_time (occurrence_time : Nat) (days_before : Nat) (time_of_day : Nat) : Nat :=
  mkInstant (dayOf occurrence_time - days_before) time_of_day

/-- A timezone, as the UTC offset (in minutes, possibly negative, possibly
changing across a DST transition) in effect on each local calendar day. -/
def toAbsolute (offsetOn : Nat → Int) (wallClock : Nat) : Int :=
  (wallClock : Int) - offsetOn (dayOf wallClock)

/-! ## Occurrence repository (`grug/models_crud.py`)

The `GameSessionEvent` / `Group` schema revision: the model classes
themselves are not under `src/` (only their callers are), so the fields are
modelled from their uses and from the spec.  `Group.next_game_session_event`
and `GameSessionEvent.reminder_datetime` are computed properties of that
missing revision, modelled from the spec as the cron rule's next fire time
and the reminder-offset time respectively.  The tracking flags mirror the
`track_food` / `track_attendance` columns declared on `Event` in
`grug/models.py`. -/

structure GameSessionEvent where
  id : Nat
  group_id : Nat
  timestamp : Nat
deriving Repr, DecidableEq

structure Group where
  id : Nat
  game_session_cron_schedule : Option Cron
  reminder_days_before : Nat
  reminder_time_of_day : Nat
  track_food : Bool
  track_attendance : Bool
deriving Repr, DecidableEq

/-- Modelled from the spec: the `Group.next_game_session_event` property
(absent from `src/`) — the next fire time of the group's cron rule relative
to now, `none` when no rule is configured or the rule yields nothing. -/
def Group.nextGameSessionEvent (g : Group) (now : Nat) : Option Nat :=
  g.game_session_cron_schedule.bind (fun c => cronNext c now)

/-- Modelled from the spec: the `GameSessionEvent.reminder_datetime` property
(absent from `src/`) — the reminder-offset time of the occurrence. -/
def GameSessionEvent.reminderDatetime (g : Group) (ev : GameSessionEvent) : Nat :=
  reminder_time ev.timestamp g.reminder_days_before g.reminder_time_of_day

/-- The domain tables touched by the occurrence repository and the reminder
senders: `GameSessionEvent` rows plus the two reminder discord-message
tables (rows are `(discord_message_id, game_session_event_id)`). -/
structure DB where
  events : List GameSessionEvent
  nextId : Nat
  attendanceMessages : List (Nat × Nat)
  foodMessages : List (Nat × Nat)
  nextMessageId : Nat
deriving Repr, DecidableEq

/-- Comparison used by the `ORDER BY timestamp` of the future-occurrence query. -/
def gseLe (a b : GameSessionEvent) : Bool := Nat.ble a.timestamp b.timestamp

/-- Insertion step of the `ORDER BY timestamp` sort. -/
def insertByTs (e : GameSessionEvent) : List GameSessionEvent → List GameSessionEvent
  | [] => [e]
  | x :: xs => if gseLe e x then e :: x :: xs else x :: insertByTs e xs

/-- The `ORDER BY timestamp` sort (insertion sort; any timestamp-ordered
permutation models SQL ordering). -/
def sortByTs : List GameSessionEvent → List GameSessionEvent
  | [] => []
  | x :: xs => insertByTs x (sortByTs xs)

/-- The `SELECT ... WHERE group_id = :gid AND timestamp >= now ORDER BY timestamp`
query of `get_or_create_next_game_session_event`. -/
def futureEvents (db : DB) (groupId now : Nat) : List GameSessionEvent :=
  sortByTs (db.events.filter (fun e => e.group_id == groupId && Nat.ble now e.timestamp))

/-- Modelled from the spec: the `(event_id, event_date)` uniqueness
constraint on occurrence rows (the `GameSessionEvent` table definition is
absent from `src/`; the spec states the constraint).  A commit inserting a
row that collides with an existing row on (group, date) raises an
integrity error, exactly as a database uniqueness constraint would. -/
def commitInsertUnique (db : DB) (ev : GameSessionEvent) : Except String DB :=
  if db.events.any (fun e => e.group_id == ev.group_id && dayOf e.timestamp == dayOf ev.timestamp)
  then Except.error "IntegrityError: duplicate key value violates unique constraint"
  else Except.ok { db with events := db.events ++ [ev], nextId := db.nextId + 1 }

/-- The create-if-missing phase of `get_or_create_next_game_session_event`
(`grug/models_crud.py` lines 122–140), taking the already-computed list of
future occurrences: if none exist, insert a new occurrence at the group's
next session time (or return `none` when no next time is configured);
otherwise return the first row of the ordered query.  The source wraps the
insert in no try/except, so a constraint violation at commit time propagates
to the caller.  The `future` argument is the list read earlier by the
SELECT — under a concurrent interleaving the database may have changed
since. -/
def gocInsertPhaseChecked (g : Group) (now : Nat) (db : DB)
    (future : List GameSessionEvent) : Except String (Option GameSessionEvent × DB) :=
  match future with
  | [] =>
    match g.nextGameSessionEvent now with
    | none => Except.ok (none, db)
    | some t =>
      (commitInsertUnique db ⟨db.nextId, g.id, t⟩).map
        (fun db' => (some (⟨db.nextId, g.id, t⟩ : GameSessionEvent), db'))
  | e :: _ => Except.ok (some e, db)

/-- `get_or_create_next_game_session_event(group_id, session)` from
`grug/models_crud.py`: load the group (raising when missing), query its
future occurrences ordered by timestamp, and run the create-if-missing
phase against the constraint-bearing database. -/
def get_or_create_next_game_session_event (groups : List Group) (groupId now : Nat)
    (db : DB) : Except String (Option GameSessionEvent × DB) :=
  match groups.find? (fun g => g.id == groupId) with
  | none => Except.error "ValueError: Event not found"
  | some g => gocInsertPhaseChecked g now db (futureEvents db groupId now)

/-! ## Job store and occurrence sync controller (`grug/scheduler.py`) -/

/-- A stored trigger: the sync controller registers cron triggers (for the
game-session schedule) and one-shot date triggers (for the reminder
schedule). -/
inductive Trig where
  | cron (c : Cron)
  | date (t : Nat)
deriving Repr, DecidableEq

/-- A schedule row in the job store. -/
structure Sched where
  trigger : Trig
  paused : Bool
  next_fire_time : Option Nat
deriving Repr, DecidableEq

/-- The job store's schedules table: rows keyed by the schedule id string. -/
abbrev JobStore := List (String × Sched)

/-- `scheduler.get_schedule(id)`, with `ScheduleLookupError` rendered as `none`. -/
def lookupSched (s : JobStore) (id : String) : Option Sched :=
  (s.find? (fun p => p.1 == id)).map (fun p => p.2)

/-- The next fire time the job store records for a freshly added trigger. -/
def trigNext (tr : Trig) (now : Nat) : Option Nat :=
  match tr with
  | Trig.cron c => cronNext c now
  | Trig.date t => some t

/-- `scheduler.add_schedule(id, ..., conflict_policy=ConflictPolicy.replace)`:
replace the row of that id if present, else append a new row; the new row is
unpaused. -/
def addSchedule (s : JobStore) (id : String) (tr : Trig) (now : Nat) : JobStore :=
  if (s.find? (fun p => p.1 == id)).isSome then
    s.map (fun p => if p.1 == id then (id, ⟨tr, false, trigNext tr now⟩) else p)
  else s ++ [(id, ⟨tr, false, trigNext tr now⟩)]

/-- `scheduler.pause_schedule(id)`: set the paused flag, raising
`ScheduleLookupError` when no such schedule exists. -/
def pauseSchedule (s : JobStore) (id : String) : Except String JobStore :=
  if (s.find? (fun p => p.1 == id)).isSome then
    Except.ok (s.map (fun p => if p.1 == id then (p.1, { p.2 with paused := true }) else p))
  else Except.error "ScheduleLookupError"

/-- `scheduler.remove_schedule(id)`. -/
def removeSchedule (s : JobStore) (id : String) : JobStore :=
  s.filter (fun p => !(p.1 == id))

/-- The deterministic game-session schedule id for a group. -/
def gameSessionScheduleId (gid : Nat) : String :=
  "group_" ++ toString gid ++ "_game_session_schedule"

/-- The deterministic game-session reminder schedule id for a group. -/
def gameSessionReminderScheduleId (gid : Nat) : String :=
  "group_" ++ toString gid ++ "_game_session_reminder_schedule"

/-- The state `update_group_schedules` reads and writes: the job store and
the domain tables. -/
structure SchedState where
  store : JobStore
  db : DB
deriving Repr, DecidableEq

/-- One iteration of the per-group loop of `update_group_schedules`
(`grug/scheduler.py` lines 94–166), faithful to the source control flow:

1. fetch the game-session schedule (`ScheduleLookupError` → absent, marked
   for replacement); a present schedule with a cron trigger is compared on
   next fire time against the group's cron trigger; a present schedule with
   a non-cron trigger is removed and marked for replacement;
2. if marked: with no cron schedule configured on the group, pause the
   existing schedule; otherwise add-with-replace the cron schedule;
3. fetch the reminder schedule, get-or-create the next game session event,
   and re-add the reminder schedule (replace policy, unpaused, one-shot date
   trigger at the occurrence's reminder time) whenever (no reminder schedule
   exists and the group has a cron schedule) or (a game-session schedule was
   fetched, a next occurrence exists, and the fetched schedule's next fire
   time differs from the occurrence's reminder time).

Attribute accesses on `None` (a stored cron schedule without a next fire
time, a missing next occurrence reaching `.reminder_datetime`) surface as
errors, as they would in the source. -/
def sessionSchedulePhase (g : Group) (now : Nat) (store : JobStore) :
    Except String (JobStore × Option Sched) := do
  let sid := gameSessionScheduleId g.id
  let game_session_schedule := lookupSched store sid
  let (store1, replace_session_schedule) ←
    match game_session_schedule with
    | some sch =>
      match sch.trigger with
      | Trig.cron _ =>
        match sch.next_fire_time with
        | none => Except.error "AttributeError: astimezone of None"
        | some t1 =>
          match g.game_session_cron_schedule with
          | none => Except.error "AttributeError: cron trigger of None schedule"
          | some c =>
            match cronNext c now with
            | none => Except.error "AttributeError: astimezone of None"
            | some t2 => Except.ok (store, !(t1 == t2))
      | Trig.date _ => Except.ok (removeSchedule store sid, true)
    | none => Except.ok (store, true)
  let store2 ←
    if replace_session_schedule then
      match g.game_session_cron_schedule with
      | none =>
        match game_session_schedule with
        | some _ => pauseSchedule store1 sid
        | none => Except.ok store1
      | some c => Except.ok (addSchedule store1 sid (Trig.cron c) now)
    else Except.ok store1
  Except.ok (store2, game_session_schedule)

def reminderSchedulePhase (groups : List Group) (g : Group) (now : Nat)
    (store2 : JobStore) (game_session_schedule : Option Sched) (db : DB) :
    Except String (JobStore × DB) := do
  let rid := gameSessionReminderScheduleId g.id
  let game_session_reminder_schedule := lookupSched store2 rid
  let (next_game_session_event, db1) ←
    get_or_create_next_game_session_event groups g.id now db
  let cond :=
    (game_session_reminder_schedule.isNone && g.game_session_cron_schedule.isSome)
      || (match game_session_schedule, next_game_session_event with
          | some sch, some ev =>
            !(sch.next_fire_time == some (GameSessionEvent.reminderDatetime g ev))
          | _, _ => false)
  if cond then
    match next_game_session_event with
    | none => Except.error "AttributeError: reminder_datetime of None"
    | some ev =>
      Except.ok (addSchedule store2 rid
        (Trig.date (GameSessionEvent.reminderDatetime g ev)) now, db1)
  else
    Except.ok (store2, db1)

def updateOneGroupSchedules (groups : List Group) (g : Group) (now : Nat)
    (st : SchedState) : Except String SchedState := do
  let (store2, game_session_schedule) ← sessionSchedulePhase g now st.store
  let (store3, db1) ← reminderSchedulePhase groups g now store2 game_session_schedule st.db
  Except.ok ⟨store3, db1⟩

/-- `update_group_schedules` over a list of groups (the source's per-group
loop). -/
def update_group_schedules (groups : List Group) (now : Nat) (st : SchedState) :
    Except String SchedState :=
  groups.foldlM (fun acc g => updateOneGroupSchedules groups g now acc) st

/-- Iterating the sync `n` times on the same entity state. -/
def updateGroupSchedulesIter (groups : List Group) (now : Nat) :
    Nat → SchedState → Except String SchedState
  | 0, st => Except.ok st
  | n + 1, st => do
    let st' ← update_group_schedules groups now st
    updateGroupSchedulesIter groups now n st'

/-- No duplicate schedule ids in the job store. -/
def storeUniq (s : JobStore) : Bool :=
  match s with
  | [] => true
  | p :: rest => rest.all (fun q => !(q.1 == p.1)) && storeUniq rest

/-- Number of rows carrying a given schedule id. -/
def countId (s : JobStore) (id : String) : Nat :=
  (s.filter (fun p => p.1 == id)).length

/-! ## Reminder senders (`grug/reminders.py`)

These senders resolve their target occurrence through
`get_or_create_next_game_session_event`, send a Discord message for it, and
record the message row; they read neither `track_food` nor
`track_attendance`.  The Discord send is modelled as allocating the next
message id; the returned list holds the occurrence ids a message was sent
for. -/

namespace Reminders

def send_attendance_reminder (groups : List Group) (groupId now : Nat) (db : DB) :
    Except String (DB × List Nat) := do
  let (gse?, db1) ← get_or_create_next_game_session_event groups groupId now db
  match gse? with
  | none => Except.ok (db1, [])
  | some ev =>
    let mid := db1.nextMessageId
    Except.ok ({ db1 with
      attendanceMessages := db1.attendanceMessages ++ [(mid, ev.id)],
      nextMessageId := mid + 1 }, [ev.id])

def send_food_reminder (groups : List Group) (groupId now : Nat) (db : DB) :
    Except String (DB × List Nat) := do
  let (gse?, db1) ← get_or_create_next_game_session_event groups groupId now db
  match gse? with
  | none => Except.ok (db1, [])
  | some ev =>
    let mid := db1.nextMessageId
    Except.ok ({ db1 with
      foodMessages := db1.foodMessages ++ [(mid, ev.id)],
      nextMessageId := mid + 1 }, [ev.id])

/-- `game_session_reminder(group_id)`: send the attendance reminder, then the
food reminder, in one session. -/
def game_session_reminder (groups : List Group) (groupId now : Nat) (db : DB) :
    Except String (DB × List Nat × List Nat) := do
  let (db1, attSends) ← send_attendance_reminder groups groupId now db
  let (db2, foodSends) ← send_food_reminder groups groupId now db1
  Except.ok (db2, attSends, foodSends)

end Reminders

/-! ## Reminder dispatchers (`grug/utils/attendance.py`, `grug/utils/food.py`)

The `EventOccurrence` schema revision: the model class is not under `src/`;
its fields are modelled from their uses in the dispatchers (an id, a
timestamp, and the parent event's two enable flags, inlined here). -/

structure EventOccurrence where
  id : Nat
  timestamp : Nat
  event_enable_food_discord_reminders : Bool
  event_enable_attendance_discord_reminders : Bool
deriving Repr, DecidableEq

/-- Outcome of a dispatcher call; every constructor is a normal return (the
source logs and returns in each non-send case — nothing is raised). -/
inductive DispatchResult where
  | notFound
  | alreadyPassed
  | skippedDisabled
  | sent
deriving Repr, DecidableEq

namespace Utils

/-- `send_attendance_reminder(event_occurrence_id)` from
`grug/utils/attendance.py`: load the occurrence by id (not found → log and
return), skip when its timestamp is already strictly in the past, send only
when the parent event's attendance flag is enabled. -/
def send_attendance_reminder (occs : List EventOccurrence)
    (event_occurrence_id now : Nat) : DispatchResult :=
  match occs.find? (fun o => o.id == event_occurrence_id) with
  | none => DispatchResult.notFound
  | some occ =>
    if occ.timestamp < now then DispatchResult.alreadyPassed
    else if occ.event_enable_attendance_discord_reminders then DispatchResult.sent
    else DispatchResult.skippedDisabled

/-- `send_food_reminder(event_occurrence_id)` from `grug/utils/food.py`:
same shape, gated on the food flag. -/
def send_food_reminder (occs : List EventOccurrence)
    (event_occurrence_id now : Nat) : DispatchResult :=
  match occs.find? (fun o => o.id == event_occurrence_id) with
  | none => DispatchResult.notFound
  | some occ =>
    if occ.timestamp < now then DispatchResult.alreadyPassed
    else if occ.event_enable_food_discord_reminders then DispatchResult.sent
    else DispatchResult.skippedDisabled

end Utils

/-! ## Per-(event, date) occurrence models (`grug/models.py`) -/

inductive RepeatInterval where
  | days
  | weeks
  | months
  | years
deriving Repr, DecidableEq

/-- The `Event` model of `grug/models.py` (schedule and tracking columns;
the start datetime is split into its date and wall-clock parts). -/
structure Event where
  id : Nat
  event_schedule_start_day : Nat
  event_schedule_start_hour : Nat
  event_schedule_start_minute : Nat
  event_schedule_end_date : Option Nat
  event_schedule_repeat_every : Nat
  event_schedule_repeat_interval : Option RepeatInterval
  track_food : Bool
  food_reminder_hour : Nat
  food_reminder_minute : Nat
  food_reminder_days_before_event : Nat
  track_attendance : Bool
  attendance_reminder_hour : Nat
  attendance_reminder_minute : Nat
  attendance_reminder_days_before_event : Nat
deriving Repr, DecidableEq

/-- `Event._get_calendar_interval_trigger(minute, hour, start_date_less_timedelta)`:
no trigger when no repeat interval is configured; otherwise a calendar
interval trigger starting `start_date_less_days` days before the event
schedule start, ending at the schedule end date, repeating every
`event_schedule_repeat_every` units of the configured interval, firing at
`hour:minute`. -/
def Event.getCalendarIntervalTrigger (e : Event) (minute hour : Nat)
    (start_date_less_days : Nat) : Option CalendarIntervalTrig :=
  match e.event_schedule_repeat_interval with
  | none => none
  | some iv =>
    some { startDay := e.event_schedule_start_day - start_date_less_days
           endDay := e.event_schedule_end_date
           weeks := if iv = RepeatInterval.weeks then e.event_schedule_repeat_every else 0
           days := if iv = RepeatInterval.days then e.event_schedule_repeat_every else 0
           months := if iv = RepeatInterval.months then e.event_schedule_repeat_every else 0
           hour := hour
           minute := minute }

/-- `Event.get_event_calendar_interval_trigger`. -/
def Event.get_event_calendar_interval_trigger (e : Event) : Option CalendarIntervalTrig :=
  e.getCalendarIntervalTrigger e.event_schedule_start_minute e.event_schedule_start_hour 0

/-- `Event.get_food_reminder_calendar_interval_trigger`. -/
def Event.get_food_reminder_calendar_interval_trigger (e : Event) :
    Option CalendarIntervalTrig :=
  e.getCalendarIntervalTrigger e.food_reminder_minute e.food_reminder_hour
    e.food_reminder_days_before_event

/-- `Event.get_attendance_reminder_calendar_interval_trigger`. -/
def Event.get_attendance_reminder_calendar_interval_trigger (e : Event) :
    Option CalendarIntervalTrig :=
  e.getCalendarIntervalTrigger e.attendance_reminder_minute e.attendance_reminder_hour
    e.attendance_reminder_days_before_event

/-- An `event_food` row (`grug/models.py`; the table carries the unique
index on `(event_id, event_date)`). -/
structure EventFood where
  id : Nat
  event_date : Nat
  event_id : Nat
  user_assigned_food_id : Option Nat
deriving Repr, DecidableEq

/-- An `event_attendance` row (`grug/models.py`; the table carries the
unique index on `(event_id, event_date)`). -/
structure EventAttendance where
  id : Nat
  event_date : Nat
  event_id : Nat
deriving Repr, DecidableEq

/-- The `Event.food` relationship: the event's rows of the `event_food` table. -/
def Event.food (e : Event) (tbl : List EventFood) : List EventFood :=
  tbl.filter (fun r => r.event_id == e.id)

/-- The `Event.attendance` relationship. -/
def Event.attendance (e : Event) (tbl : List EventAttendance) : List EventAttendance :=
  tbl.filter (fun r => r.event_id == e.id)

/-- `Event.get_next_food_event`: compute the event trigger's next fire after
now (`None` trigger → return `None`; a `None` next fire hits `.date()` and
surfaces as an error), return the event's food row of that date if one
exists, otherwise insert exactly one new row at that date.  The source
stores the full next-fire datetime into the `event_date` date column; the
database truncates it to its date, which the model applies directly. -/
def Event.get_next_food_event (e : Event) (tbl : List EventFood) (now nextId : Nat) :
    Except String (Option EventFood × List EventFood) :=
  match e.get_event_calendar_interval_trigger with
  | none => Except.ok (none, tbl)
  | some trig =>
    match calendarNext trig now with
    | none => Except.error "AttributeError: date of None"
    | some t =>
      match (e.food tbl).find? (fun r => r.event_date == dayOf t) with
      | some fe => Except.ok (some fe, tbl)
      | none =>
        let row : EventFood := ⟨nextId, dayOf t, e.id, none⟩
        Except.ok (some row, tbl ++ [row])

/-- `Event.get_next_attendance_event`: same shape over the attendance table. -/
def Event.get_next_attendance_event (e : Event) (tbl : List EventAttendance)
    (now nextId : Nat) : Except String (Option EventAttendance × List EventAttendance) :=
  match e.get_event_calendar_interval_trigger with
  | none => Except.ok (none, tbl)
  | some trig =>
    match calendarNext trig now with
    | none => Except.error "AttributeError: date of None"
    | some t =>
      match (e.attendance tbl).find? (fun r => r.event_date == dayOf t) with
      | some ae => Except.ok (some ae, tbl)
      | none =>
        let row : EventAttendance := ⟨nextId, dayOf t, e.id⟩
        Except.ok (some row, tbl ++ [row])

/-- At most one `event_food` row per `(event_id, event_date)` — the unique
index `compound_index_event_food_event_id_date`. -/
def foodUniq : List EventFood → Bool
  | [] => true
  | r :: rest =>
    rest.all (fun s => !(s.event_id == r.event_id && s.event_date == r.event_date))
      && foodUniq rest

/-- At most one `event_attendance` row per `(event_id, event_date)` — the
unique index `compound_index_event_attendance_event_id_date`. -/
def attendanceUniq : List EventAttendance → Bool
  | [] => true
  | r :: rest =>
    rest.all (fun s => !(s.event_id == r.event_id && s.event_date == r.event_date))
      && attendanceUniq rest

/-! ## Concrete instances used by the examples -/

/-- The cron expression `0 17 * * 0` — every Sunday at 17:00. -/
def sundayCron : Cron :=
  ⟨⟨some [0]⟩, ⟨some [17]⟩, ⟨none⟩, ⟨none⟩, ⟨some [0]⟩⟩

/-- The cron expression `* * * * *` — every minute. -/
def everyMinuteCron : Cron := ⟨⟨none⟩, ⟨none⟩, ⟨none⟩, ⟨none⟩, ⟨none⟩⟩

/-- Monday 2024-01-01 10:00 (day 19723 since 1970-01-01). -/
def mon20240101at1000 : Nat := mkInstant 19723 600

/-- Sunday 2024-01-07 17:00. -/
def sun20240107at1700 : Nat := mkInstant 19729 1020

/-- Sunday 2024-01-14 17:00. -/
def sun20240114at1700 : Nat := mkInstant 19736 1020

/-- A calendar interval of 2 weeks starting 2024-01-01 00:00, no end date. -/
def biweeklyTrig : CalendarIntervalTrig := ⟨19723, none, 0, 2, 0, 0, 0⟩

/-- A group (id 1) with an every-minute cron schedule, reminders 3 days
before at 11:00. -/
def gEvery : Group := ⟨1, some everyMinuteCron, 3, 660, true, true⟩

/-- A group (id 2) with no cron schedule configured. -/
def gNone : Group := ⟨2, none, 3, 660, true, true⟩

def groups0 : List Group := [gEvery, gNone]

/-- An empty domain database. -/
def dbEmpty : DB := ⟨[], 0, [], [], 0⟩

/-- `dbEmpty` after inserting the occurrence of group 1 at instant 1001. -/
def dbOne : DB := ⟨[⟨0, 1, 1001⟩], 1, [], [], 0⟩

/-- Two future occurrences of group 1, stored out of timestamp order. -/
def dbTwo : DB := ⟨[⟨0, 1, 2000⟩, ⟨1, 1, 1500⟩], 2, [], [], 0⟩

/-- Sync reference instant for the elapsed-reminder scenario: day 700, 10:00. -/
def nowC : Nat := mkInstant 700 600

/-- One stored future occurrence of group 1 on day 700 at 20:00. -/
def dbC : DB := ⟨[⟨0, 1, mkInstant 700 1200⟩], 1, [], [], 0⟩

/-- Job store holding group 1's cron session schedule (stored next fire
`nowC + 1`) and its reminder schedule: an *active* one-shot date trigger at
the already-elapsed reminder time (day 697, 11:00). -/
def storeC : JobStore :=
  [(gameSessionScheduleId 1, ⟨Trig.cron everyMinuteCron, false, some (nowC + 1)⟩),
   (gameSessionReminderScheduleId 1,
     ⟨Trig.date (mkInstant 697 660), false, some (mkInstant 697 660)⟩)]

/-- The job store produced by syncing `groups0` from an empty store at
reference instant 1000. -/
def storeW : JobStore :=
  [(gameSessionScheduleId 1, ⟨Trig.cron everyMinuteCron, false, some 1001⟩),
   (gameSessionReminderScheduleId 1, ⟨Trig.date 660, false, some 660⟩)]

/-- The sync state after running the sync on `groups0` from an empty store
and an empty database at reference instant 1000. -/
def stW : SchedState := ⟨storeW, dbOne⟩

/-- Flip only the food-tracking flag of a group. -/
def Group.setTrackFood (g : Group) (b : Bool) : Group := { g with track_food := b }

/-- Flip only the attendance-tracking flag of a group. -/
def Group.setTrackAttendance (g : Group) (b : Bool) : Group := { g with track_attendance := b }

/-- A group (id 1) with food tracking disabled and attendance tracking
enabled, on an every-minute cron schedule. -/
def gFood : Group := ⟨1, some everyMinuteCron, 3, 660, false, true⟩

/-- The database after `game_session_reminder` sends both reminders for the
occurrence of `dbOne`. -/
def dbR : DB := ⟨[⟨0, 1, 1001⟩], 1, [(0, 0)], [(1, 0)], 2⟩

/-- One stored occurrence (id 1, timestamp 5000) whose parent event has
food reminders disabled and attendance reminders enabled. -/
def occsC : List EventOccurrence := [⟨1, 5000, false, true⟩]

/-- A weekly event starting Monday 2024-01-01 17:00, food reminder 3 days
before at 11:00, attendance reminder 2 days before at 11:00. -/
def eventW : Event :=
  ⟨1, 19723, 17, 0, none, 1, some RepeatInterval.weeks,
    true, 11, 0, 3, true, 11, 0, 2⟩

/-- A weekly event starting Friday 2024-03-15 17:00 (same reminder
settings). -/
def eventDST : Event :=
  ⟨1, 19797, 17, 0, none, 1, some RepeatInterval.weeks,
    true, 11, 0, 3, true, 11, 0, 2⟩

/-- The event trigger of `eventDST`. -/
def etrDST : CalendarIntervalTrig := ⟨19797, none, 0, 1, 0, 17, 0⟩

/-- The food-reminder trigger of `eventDST` (start shifted back 3 days,
11:00). -/
def ftrDST : CalendarIntervalTrig := ⟨19794, none, 0, 1, 0, 11, 0⟩

/-- The attendance-reminder trigger of `eventDST` (start shifted back
2 days, 11:00). -/
def atrDST : CalendarIntervalTrig := ⟨19795, none, 0, 1, 0, 11, 0⟩

/-- A timezone whose UTC offset (in minutes) changes across a DST
transition on day 19796 — between 2024-03-12 and 2024-03-15. -/
def offDST (day : Nat) : Int := if day < 19796 then -300 else -240

/-- A database holding one *past* occurrence of group 1 (timestamp 999,
before `now = 1000`, on day 0 — the same day as the rule's next fire). -/
def dbStale : DB := ⟨[⟨0, 1, 999⟩], 1, [], [], 0⟩

/-- A calendar interval of 1 month starting 2024-05-01 (day 19844) at
17:00, no end date. -/
def monthlyTrig : CalendarIntervalTrig := ⟨19844, none, 0, 0, 1, 17, 0⟩

/-- A monthly event starting Wednesday 2024-05-01 17:00, food reminder
3 days before at 11:00, attendance reminder 2 days before at 11:00. -/
def eventM : Event :=
  ⟨2, 19844, 17, 0, none, 1, some RepeatInterval.months,
    true, 11, 0, 3, true, 11, 0, 2⟩

/-- The event trigger of `eventM`. -/
def etrM : CalendarIntervalTrig := ⟨19844, none, 0, 0, 1, 17, 0⟩

/-- The food-reminder trigger of `eventM` (start shifted back 3 days to
2024-04-28, 11:00). -/
def ftrM : CalendarIntervalTrig := ⟨19841, none, 0, 0, 1, 11, 0⟩

/-! # Theorems -/

/-! ## Time-model lemmas -/

theorem dayOf_mkInstant (day tod : Nat) (h : tod < 1440) : dayOf (mkInstant day tod) = day := by
  unfold dayOf mkInstant
  omega

theorem todOf_mkInstant (day tod : Nat) (h : tod < 1440) : todOf (mkInstant day tod) = tod := by
  unfold todOf mkInstant
  omega

/-- Instant comparison is exactly lexicographic comparison of
(calendar date, time of day): "ordered by date, then time". -/
theorem instant_le_iff_date_time_lex (a b : Nat) :
    a ≤ b ↔ (dayOf a < dayOf b ∨ (dayOf a = dayOf b ∧ todOf a ≤ todOf b)) := by
  have ha := Nat.div_add_mod a 1440
  have hb := Nat.div_add_mod b 1440
  have ha' : a % 1440 < 1440 := Nat.mod_lt _ (by omega)
  have hb' : b % 1440 < 1440 := Nat.mod_lt _ (by omega)
  unfold dayOf todOf
  omega

/-! ## Cron search lemmas -/

theorem cronScan_none {c : Cron} : ∀ {d lo w : Nat}, w ≤ 2 ^ (d + 1) →
    cronScan c d lo w = none → ∀ v, lo ≤ v → v < lo + w → c.cmatches v = false := by
  intro d
  induction d with
  | zero =>
    intro lo w hw h v hv1 hv2
    unfold cronScan at h
    by_cases h1 : w = 1
    · subst h1
      rw [if_pos rfl] at h
      have hvlo : v = lo := by omega
      subst hvlo
      by_cases hm : c.cmatches v
      · rw [if_pos hm] at h
        exact absurd h (by simp)
      · simpa using hm
    · by_cases h2 : w = 2
      · subst h2
        rw [if_neg h1, if_pos rfl] at h
        by_cases hm : c.cmatches lo
        · rw [if_pos hm] at h
          exact absurd h (by simp)
        · rw [if_neg hm] at h
          by_cases hm1 : c.cmatches (lo + 1)
          · rw [if_pos hm1] at h
            exact absurd h (by simp)
          · have hv : v = lo ∨ v = lo + 1 := by omega
            rcases hv with rfl | rfl
            · simpa using hm
            · simpa using hm1
      · omega
  | succ d ih =>
    intro lo w hw h v hv1 hv2
    unfold cronScan at h
    by_cases hsmall : w ≤ 2
    · rw [if_pos hsmall] at h
      exact ih (by omega) h v hv1 hv2
    · rw [if_neg hsmall] at h
      have hp : (2 : Nat) ^ (d + 1 + 1) = 2 * 2 ^ (d + 1) := by
        rw [pow_succ]
        ring
      rcases hL : cronScan c d lo (w / 2) with _ | t
      · rw [hL] at h
        simp only [hL] at h
        by_cases hvL : v < lo + w / 2
        · exact ih (by omega) hL v hv1 hvL
        · exact ih (by omega) h v (by omega) (by omega)
      · rw [hL] at h
        simp at h

theorem cronScan_some {c : Cron} : ∀ {d lo w t : Nat}, w ≤ 2 ^ (d + 1) →
    cronScan c d lo w = some t →
    lo ≤ t ∧ t < lo + w ∧ c.cmatches t = true ∧
      ∀ v, lo ≤ v → v < t → c.cmatches v = false := by
  intro d
  induction d with
  | zero =>
    intro lo w t hw h
    unfold cronScan at h
    by_cases h1 : w = 1
    · subst h1
      rw [if_pos rfl] at h
      by_cases hm : c.cmatches lo
      · rw [if_pos hm] at h
        obtain rfl : lo = t := by simpa using h
        exact ⟨Nat.le_refl _, by omega, hm, fun v hv1 hv2 => by omega⟩
      · rw [if_neg hm] at h
        exact absurd h (by simp)
    · by_cases h2 : w = 2
      · subst h2
        rw [if_neg h1, if_pos rfl] at h
        by_cases hm : c.cmatches lo
        · rw [if_pos hm] at h
          obtain rfl : lo = t := by simpa using h
          exact ⟨Nat.le_refl _, by omega, hm, fun v hv1 hv2 => by omega⟩
        · rw [if_neg hm] at h
          by_cases hm1 : c.cmatches (lo + 1)
          · rw [if_pos hm1] at h
            obtain rfl : lo + 1 = t := by simpa using h
            refine ⟨by omega, by omega, hm1, fun v hv1 hv2 => ?_⟩
            obtain rfl : v = lo := by omega
            simpa using hm
          · rw [if_neg hm1] at h
            exact absurd h (by simp)
      · rw [if_neg h1, if_neg h2] at h
        exact absurd h (by simp)
  | succ d ih =>
    intro lo w t hw h
    unfold cronScan at h
    by_cases hsmall : w ≤ 2
    · rw [if_pos hsmall] at h
      exact ih (by omega) h
    · rw [if_neg hsmall] at h
      have hp : (2 : Nat) ^ (d + 1 + 1) = 2 * 2 ^ (d + 1) := by
        rw [pow_succ]
        ring
      rcases hL : cronScan c d lo (w / 2) with _ | t'
      · rw [hL] at h
        simp only [hL] at h
        obtain ⟨a1, a2, a3, a4⟩ := ih (show w - w / 2 ≤ 2 ^ (d + 1) by omega) h
        refine ⟨by omega, by omega, a3, fun v hv1 hv2 => ?_⟩
        by_cases hvL : v < lo + w / 2
        · exact cronScan_none (by omega) hL v hv1 hvL
        · exact a4 v (by omega) hv2
      · rw [hL] at h
        simp at h
        subst h
        obtain ⟨a1, a2, a3, a4⟩ := ih (show w / 2 ≤ 2 ^ (d + 1) by omega) hL
        exact ⟨a1, by omega, a3, a4⟩

/-- Soundness of `cronNext`: any returned instant is strictly after the
reference, matches the expression, and no earlier instant after the
reference matches. -/
theorem cronNext_sound {c : Cron} {ref t : Nat} (h : cronNext c ref = some t) :
    ref < t ∧ c.cmatches t = true ∧ ∀ v, ref < v → v < t → c.cmatches v = false := by
  have hw : cronFuel ≤ 2 ^ (20 + 1) := by
    unfold cronFuel
    norm_num
  obtain ⟨h1, _, h3, h4⟩ := cronScan_some hw h
  exact ⟨by omega, h3, fun v hv hv' => h4 v (by omega) hv'⟩

/-! ## Calendar-interval lemmas -/

theorem civilFromDays_dom_le (z : Nat) : (civilFromDays z).2.2 ≤ 31 := by
  unfold civilFromDays
  dsimp only
  omega

theorem daysInMonth_bounds (y m : Nat) :
    28 ≤ daysInMonth y m ∧ daysInMonth y m ≤ 31 := by
  unfold daysInMonth
  by_cases h2 : m = 2
  · rw [if_pos h2]
    by_cases hl : isLeap y = true
    · rw [if_pos hl]
      exact ⟨by omega, by omega⟩
    · rw [if_neg hl]
      exact ⟨by omega, by omega⟩
  · rw [if_neg h2]
    by_cases h30 : m = 4 ∨ m = 6 ∨ m = 9 ∨ m = 11
    · rw [if_pos h30]
      exact ⟨by omega, by omega⟩
    · rw [if_neg h30]
      exact ⟨by omega, by omega⟩

theorem monthSpanDays_add (a b : Nat) : ∀ ym, monthSpanDays (a + b) ym
    = monthSpanDays a ym + monthSpanDays b (monthShift a ym) := by
  induction a with
  | zero => intro ym; simp [monthSpanDays, monthShift]
  | succ a ih =>
    intro ym
    have h1 : a + 1 + b = (a + b) + 1 := by omega
    rw [h1]
    show daysInMonth ym.1 ym.2 + monthSpanDays (a + b) (monthSucc ym) = _
    rw [ih (monthSucc ym)]
    show _ = daysInMonth ym.1 ym.2 + monthSpanDays a (monthSucc ym)
      + monthSpanDays b (monthShift a (monthSucc ym))
    omega

theorem monthSpanDays_lower (n : Nat) : ∀ ym, 28 * n ≤ monthSpanDays n ym := by
  induction n with
  | zero => intro ym; simp [monthSpanDays]
  | succ n ih =>
    intro ym
    show 28 * (n + 1) ≤ daysInMonth ym.1 ym.2 + monthSpanDays n (monthSucc ym)
    have h1 := (daysInMonth_bounds ym.1 ym.2).1
    have h2 := ih (monthSucc ym)
    omega

/-- Advancing by strictly more months lands strictly later. -/
theorem monthAdvance_strictMono (s : Nat) {a b : Nat} (h : a < b) :
    monthAdvance s a < monthAdvance s b := by
  have hdom := civilFromDays_dom_le s
  unfold monthAdvance
  rw [if_neg (by omega : ¬ b = 0)]
  by_cases ha : a = 0
  · rw [if_pos ha]
    dsimp only
    set c := civilFromDays s with hc
    set ym' := monthShift b (c.1, c.2.1) with hym
    have hspan := monthSpanDays_lower b (c.1, c.2.1)
    have hdim := daysInMonth_bounds ym'.1 ym'.2
    by_cases hd : c.2.2 ≤ 28
    · have hmin : min c.2.2 (daysInMonth ym'.1 ym'.2) = c.2.2 := by omega
      rw [hmin]
      omega
    · have hmin : 28 ≤ min c.2.2 (daysInMonth ym'.1 ym'.2) := by omega
      omega
  · rw [if_neg ha]
    dsimp only
    set c := civilFromDays s with hc
    have hspan : monthSpanDays b (c.1, c.2.1)
        = monthSpanDays a (c.1, c.2.1)
          + monthSpanDays (b - a) (monthShift a (c.1, c.2.1)) := by
      have hb : a + (b - a) = b := by omega
      have := monthSpanDays_add a (b - a) (c.1, c.2.1)
      rw [hb] at this
      exact this
    have hgrow := monthSpanDays_lower (b - a) (monthShift a (c.1, c.2.1))
    have hdimA := daysInMonth_bounds (monthShift a (c.1, c.2.1)).1 (monthShift a (c.1, c.2.1)).2
    have hdimB := daysInMonth_bounds (monthShift b (c.1, c.2.1)).1 (monthShift b (c.1, c.2.1)).2
    by_cases hd : c.2.2 ≤ 28
    · have hminA : min c.2.2 (daysInMonth (monthShift a (c.1, c.2.1)).1 (monthShift a (c.1, c.2.1)).2) = c.2.2 := by omega
      have hminB : min c.2.2 (daysInMonth (monthShift b (c.1, c.2.1)).1 (monthShift b (c.1, c.2.1)).2) = c.2.2 := by omega
      rw [hminA, hminB]
      omega
    · have hminA : min c.2.2 (daysInMonth (monthShift a (c.1, c.2.1)).1 (monthShift a (c.1, c.2.1)).2) ≤ 31 := by omega
      have hminA' : 28 ≤ min c.2.2 (daysInMonth (monthShift a (c.1, c.2.1)).1 (monthShift a (c.1, c.2.1)).2) := by omega
      have hminB : 28 ≤ min c.2.2 (daysInMonth (monthShift b (c.1, c.2.1)).1 (monthShift b (c.1, c.2.1)).2) := by omega
      omega

/-- Lower bound on the growth of month advancement. -/
theorem monthAdvance_lower (s n : Nat) : s + 28 * n ≤ monthAdvance s n + 3 := by
  have hdom := civilFromDays_dom_le s
  unfold monthAdvance
  by_cases hn : n = 0
  · rw [if_pos hn]
    omega
  · rw [if_neg hn]
    dsimp only
    set c := civilFromDays s with hc
    set ym' := monthShift n (c.1, c.2.1) with hym
    have hspan := monthSpanDays_lower n (c.1, c.2.1)
    have hdim := daysInMonth_bounds ym'.1 ym'.2
    by_cases hd : c.2.2 ≤ 28
    · have hmin : min c.2.2 (daysInMonth ym'.1 ym'.2) = c.2.2 := by omega
      rw [hmin]
      omega
    · have hmin : 28 ≤ min c.2.2 (daysInMonth ym'.1 ym'.2) := by omega
      omega

theorem fireDay_mono {tr : CalendarIntervalTrig}
    (hi : tr.intervalDays ≠ 0 ∨ tr.months ≠ 0) {j k : Nat} (h : j < k) :
    tr.fireDay j < tr.fireDay k := by
  unfold CalendarIntervalTrig.fireDay
  by_cases hm : tr.months = 0
  · rcases hi with hi | hi
    · rw [hm]
      simp only [Nat.mul_zero]
      have h1 : j + 1 ≤ k := h
      have h2 : j * tr.intervalDays + tr.intervalDays ≤ k * tr.intervalDays := by
        calc j * tr.intervalDays + tr.intervalDays
            = (j + 1) * tr.intervalDays := by ring
          _ ≤ k * tr.intervalDays := Nat.mul_le_mul_right _ h1
      omega
    · exact absurd hm hi
  · have hm1 : 1 ≤ tr.months := by omega
    have hle : (j + 1) * tr.months ≤ k * tr.months := Nat.mul_le_mul_right _ h
    have hexp : (j + 1) * tr.months = j * tr.months + tr.months := by ring
    have hlt : j * tr.months < k * tr.months := by omega
    have h1 := monthAdvance_strictMono tr.startDay hlt
    have h2 : j * tr.intervalDays ≤ k * tr.intervalDays :=
      Nat.mul_le_mul_right _ (Nat.le_of_lt h)
    omega

theorem fireAt_mono {tr : CalendarIntervalTrig}
    (hi : tr.intervalDays ≠ 0 ∨ tr.months ≠ 0) {j k : Nat} (h : j < k) :
    tr.fireAt j < tr.fireAt k := by
  unfold CalendarIntervalTrig.fireAt mkInstant
  have h1 := fireDay_mono hi h
  have h2 : tr.fireDay j * 1440 + 1440 ≤ tr.fireDay k * 1440 := by
    calc tr.fireDay j * 1440 + 1440 = (tr.fireDay j + 1) * 1440 := by ring
      _ ≤ tr.fireDay k * 1440 := Nat.mul_le_mul_right _ h1
  omega

theorem fireDay_lower {tr : CalendarIntervalTrig} (k : Nat) (hk : 1 ≤ k) :
    k * tr.stepLB ≤ tr.fireDay k := by
  unfold CalendarIntervalTrig.fireDay CalendarIntervalTrig.stepLB
  by_cases hm : tr.months = 0
  · rw [if_pos hm, hm]
    simp only [Nat.mul_zero]
    have hma : monthAdvance tr.startDay 0 = tr.startDay := by
      unfold monthAdvance
      rw [if_pos rfl]
    rw [hma]
    omega
  · rw [if_neg hm]
    have hadv := monthAdvance_lower tr.startDay (k * tr.months)
    have hexp : k * (28 * tr.months + tr.intervalDays - 3) + 3 * k
        = 28 * (k * tr.months) + k * tr.intervalDays := by
      have h3 : 28 * tr.months + tr.intervalDays - 3 + 3
          = 28 * tr.months + tr.intervalDays := by omega
      calc k * (28 * tr.months + tr.intervalDays - 3) + 3 * k
          = k * (28 * tr.months + tr.intervalDays - 3 + 3) := by ring
        _ = k * (28 * tr.months + tr.intervalDays) := by rw [h3]
        _ = 28 * (k * tr.months) + k * tr.intervalDays := by ring
    omega

theorem calFindK_none {tr : CalendarIntervalTrig} {ref : Nat} :
    ∀ {fuel k : Nat}, calFindK tr ref k fuel = none →
      ∀ j, k ≤ j → j < k + fuel → tr.fireAt j ≤ ref := by
  intro fuel
  induction fuel with
  | zero =>
    intro k h j h1 h2
    omega
  | succ fuel ih =>
    intro k h j h1 h2
    unfold calFindK at h
    by_cases hlt : ref < tr.fireAt k
    · rw [if_pos hlt] at h
      exact absurd h (by simp)
    · rw [if_neg hlt] at h
      by_cases hjk : j = k
      · subst hjk
        exact Nat.not_lt.mp hlt
      · exact ih h j (by omega) (by omega)

theorem calFindK_some {tr : CalendarIntervalTrig} {ref : Nat} :
    ∀ {fuel k k' : Nat}, calFindK tr ref k fuel = some k' →
      k ≤ k' ∧ ref < tr.fireAt k' ∧ ∀ j, k ≤ j → j < k' → tr.fireAt j ≤ ref := by
  intro fuel
  induction fuel with
  | zero =>
    intro k k' h
    exact absurd h (by simp [calFindK])
  | succ fuel ih =>
    intro k k' h
    unfold calFindK at h
    by_cases hlt : ref < tr.fireAt k
    · rw [if_pos hlt] at h
      obtain rfl : k = k' := by simpa using h
      exact ⟨Nat.le_refl _, hlt, fun j h1 h2 => by omega⟩
    · rw [if_neg hlt] at h
      obtain ⟨h1, h2, h3⟩ := ih h
      refine ⟨by omega, h2, ?_⟩
      intro j hj1 hj2
      by_cases hjk : j = k
      · subst hjk
        exact Nat.not_lt.mp hlt
      · exact h3 j (by omega) hj2

theorem calFind_exists {tr : CalendarIntervalTrig}
    (hi : tr.intervalDays ≠ 0 ∨ tr.months ≠ 0) (ref : Nat) :
    ∃ k, k < calFuel tr ref ∧ ref < tr.fireAt k := by
  have hstep : 1 ≤ tr.stepLB := by
    unfold CalendarIntervalTrig.stepLB
    by_cases hm : tr.months = 0
    · rw [if_pos hm]
      rcases hi with hi | hi
      · omega
      · exact absurd hm hi
    · rw [if_neg hm]
      omega
  obtain ⟨D, hDdef⟩ : ∃ D, tr.stepLB * 1440 = D := ⟨_, rfl⟩
  have hD : 1440 ≤ D := by
    rw [← hDdef]
    calc 1440 = 1 * 1440 := by omega
      _ ≤ tr.stepLB * 1440 := Nat.mul_le_mul_right _ hstep
  have hdm := Nat.div_add_mod ref D
  have hmod : ref % D < D := Nat.mod_lt _ (by omega)
  obtain ⟨q, hq⟩ : ∃ q, ref / D = q := ⟨_, rfl⟩
  obtain ⟨r, hr⟩ : ∃ r, ref % D = r := ⟨_, rfl⟩
  rw [hq, hr] at hdm
  rw [hr] at hmod
  have hfuel : calFuel tr ref = q + 2 := by
    unfold calFuel
    rw [hDdef, hq]
  refine ⟨q + 1, by omega, ?_⟩
  have hfd := @fireDay_lower tr (q + 1) (by omega)
  unfold CalendarIntervalTrig.fireAt mkInstant
  have h1 : (q + 1) * tr.stepLB * 1440 ≤ tr.fireDay (q + 1) * 1440 :=
    Nat.mul_le_mul_right _ hfd
  have h2 : (q + 1) * tr.stepLB * 1440 = q * D + D := by
    rw [← hDdef]
    ring
  have hcomm : D * q = q * D := Nat.mul_comm _ _
  omega

theorem calendarNext_sound {tr : CalendarIntervalTrig}
    (hi : tr.intervalDays ≠ 0 ∨ tr.months ≠ 0) (ref : Nat) :
    (∀ t, calendarNext tr ref = some t →
        ref < t
        ∧ (∃ k, t = tr.fireAt k ∧ ∀ e, tr.endDay = some e → tr.fireDay k ≤ e)
        ∧ ∀ j, ref < tr.fireAt j → t ≤ tr.fireAt j)
    ∧ (calendarNext tr ref = none →
        ∃ e, tr.endDay = some e ∧ ∀ j, ref < tr.fireAt j → e < tr.fireDay j) := by
  have hdeg : ¬ (tr.intervalDays = 0 ∧ tr.months = 0) := by tauto
  obtain ⟨k0, hk0f, hk0⟩ := calFind_exists hi ref
  have hfind : ∃ k', calFindK tr ref 0 (calFuel tr ref) = some k' := by
    rcases hres : calFindK tr ref 0 (calFuel tr ref) with _ | k'
    · have := calFindK_none hres k0 (by omega) (by omega)
      omega
    · exact ⟨k', rfl⟩
  obtain ⟨k', hk'⟩ := hfind
  obtain ⟨_, hk'lt, hk'min⟩ := calFindK_some hk'
  have hminAll : ∀ j, ref < tr.fireAt j → tr.fireAt k' ≤ tr.fireAt j := by
    intro j hj
    rcases Nat.lt_or_ge j k' with hlt | hge
    · have := hk'min j (by omega) hlt
      omega
    · rcases Nat.eq_or_lt_of_le hge with rfl | hlt
      · exact Nat.le_refl _
      · exact Nat.le_of_lt (fireAt_mono hi hlt)
  constructor
  · intro t ht
    unfold calendarNext at ht
    rw [if_neg hdeg] at ht
    simp only [hk'] at ht
    rcases he : tr.endDay with _ | e
    · simp only [he] at ht
      obtain rfl : tr.fireAt k' = t := by simpa using ht
      exact ⟨hk'lt, ⟨k', rfl, fun e h => by simp [he] at h⟩, hminAll⟩
    · simp only [he] at ht
      by_cases hle : tr.fireDay k' ≤ e
      · rw [if_pos hle] at ht
        obtain rfl : tr.fireAt k' = t := by simpa using ht
        refine ⟨hk'lt, ⟨k', rfl, ?_⟩, hminAll⟩
        intro e' he'
        obtain rfl : e = e' := by simpa using he'
        exact hle
      · rw [if_neg hle] at ht
        exact absurd ht (by simp)
  · intro ht
    unfold calendarNext at ht
    rw [if_neg hdeg] at ht
    simp only [hk'] at ht
    rcases he : tr.endDay with _ | e
    · simp only [he] at ht
      simp at ht
    · simp only [he] at ht
      by_cases hle : tr.fireDay k' ≤ e
      · rw [if_pos hle] at ht
        exact absurd ht (by simp)
      · refine ⟨e, rfl, ?_⟩
        intro j hj
        have hjk : k' ≤ j := by
          by_contra hc
          have := hk'min j (by omega) (by omega)
          omega
        rcases Nat.eq_or_lt_of_le hjk with rfl | hlt
        · omega
        · have := fireDay_mono hi hlt
          omega

/-! ## Occurrence-repository lemmas -/

theorem gseLe_trans {a b c : GameSessionEvent}
    (h1 : gseLe a b = true) (h2 : gseLe b c = true) : gseLe a c = true := by
  unfold gseLe at h1 h2 ⊢
  rw [Nat.ble_eq] at h1 h2 ⊢
  omega

theorem gseLe_total (a b : GameSessionEvent) : gseLe a b = true ∨ gseLe b a = true := by
  unfold gseLe
  rw [Nat.ble_eq, Nat.ble_eq]
  omega

theorem insertByTs_perm (e : GameSessionEvent) (l : List GameSessionEvent) :
    List.Perm (insertByTs e l) (e :: l) := by
  induction l with
  | nil => exact List.Perm.refl _
  | cons x xs ih =>
    unfold insertByTs
    by_cases h : gseLe e x
    · rw [if_pos h]
    · rw [if_neg h]
      exact (ih.cons x).trans (List.Perm.swap e x xs)

theorem sortByTs_perm (l : List GameSessionEvent) : List.Perm (sortByTs l) l := by
  induction l with
  | nil => exact List.Perm.refl _
  | cons x xs ih =>
    unfold sortByTs
    exact (insertByTs_perm x (sortByTs xs)).trans (ih.cons x)

theorem insertByTs_pairwise (e : GameSessionEvent) {l : List GameSessionEvent}
    (h : l.Pairwise (fun a b => gseLe a b = true)) :
    (insertByTs e l).Pairwise (fun a b => gseLe a b = true) := by
  induction l with
  | nil => simp [insertByTs]
  | cons x xs ih =>
    rw [List.pairwise_cons] at h
    obtain ⟨hx, hxs⟩ := h
    unfold insertByTs
    by_cases hex : gseLe e x
    · rw [if_pos hex]
      rw [List.pairwise_cons]
      refine ⟨?_, List.pairwise_cons.mpr ⟨hx, hxs⟩⟩
      intro b hb
      rcases List.mem_cons.mp hb with rfl | hb'
      · exact hex
      · exact gseLe_trans hex (hx b hb')
    · rw [if_neg hex]
      rw [List.pairwise_cons]
      have hxe : gseLe x e = true := by
        rcases gseLe_total e x with h | h
        · exact absurd h hex
        · exact h
      refine ⟨?_, ih hxs⟩
      intro b hb
      have hb' : b ∈ e :: xs := (insertByTs_perm e xs).mem_iff.mp hb
      rcases List.mem_cons.mp hb' with rfl | hb''
      · exact hxe
      · exact hx b hb''

theorem sortByTs_pairwise (l : List GameSessionEvent) :
    (sortByTs l).Pairwise (fun a b => gseLe a b = true) := by
  induction l with
  | nil => simp [sortByTs]
  | cons x xs ih =>
    unfold sortByTs
    exact insertByTs_pairwise x ih

/-- When the future-occurrence query returns a first row, that row is a
stored future occurrence of the group with minimal timestamp among them. -/
theorem futureEvents_cons {db : DB} {groupId now : Nat} {e : GameSessionEvent}
    {rest : List GameSessionEvent} (h : futureEvents db groupId now = e :: rest) :
    (e ∈ db.events ∧ e.group_id = groupId ∧ now ≤ e.timestamp) ∧
      ∀ x ∈ db.events, x.group_id = groupId → now ≤ x.timestamp →
        e.timestamp ≤ x.timestamp := by
  unfold futureEvents at h
  have hperm := sortByTs_perm
    (db.events.filter (fun e => e.group_id == groupId && Nat.ble now e.timestamp))
  have hsorted := sortByTs_pairwise
    (db.events.filter (fun e => e.group_id == groupId && Nat.ble now e.timestamp))
  rw [h] at hperm hsorted
  have hmem : e ∈ db.events.filter
      (fun e => e.group_id == groupId && Nat.ble now e.timestamp) :=
    hperm.mem_iff.mp (List.mem_cons_self e rest)
  rw [List.mem_filter] at hmem
  obtain ⟨he1, he2⟩ := hmem
  have he2' : e.group_id = groupId ∧ now ≤ e.timestamp := by
    simpa [Nat.ble_eq] using he2
  refine ⟨⟨he1, he2'.1, he2'.2⟩, ?_⟩
  intro x hx hx1 hx2
  have hxf : x ∈ db.events.filter
      (fun e => e.group_id == groupId && Nat.ble now e.timestamp) := by
    rw [List.mem_filter]
    exact ⟨hx, by simp [Nat.ble_eq, hx1, hx2]⟩
  have hx' : x ∈ e :: rest := hperm.mem_iff.mpr hxf
  rcases List.mem_cons.mp hx' with rfl | hxr
  · exact Nat.le_refl _
  · have hle := (List.pairwise_cons.mp hsorted).1 x hxr
    unfold gseLe at hle
    rw [Nat.ble_eq] at hle
    exact hle

/-- A stored future occurrence of the group makes the query nonempty. -/
theorem futureEvents_ne_nil {db : DB} {groupId now : Nat} {x : GameSessionEvent}
    (hx : x ∈ db.events) (h1 : x.group_id = groupId) (h2 : now ≤ x.timestamp) :
    futureEvents db groupId now ≠ [] := by
  intro h
  unfold futureEvents at h
  have hperm := sortByTs_perm
    (db.events.filter (fun e => e.group_id == groupId && Nat.ble now e.timestamp))
  rw [h] at hperm
  have hxf : x ∈ db.events.filter
      (fun e => e.group_id == groupId && Nat.ble now e.timestamp) := by
    rw [List.mem_filter]
    exact ⟨hx, by simp [Nat.ble_eq, h1, h2]⟩
  have hnil := hperm.symm.mem_iff.mp hxf
  simp at hnil

/-- `get_or_create_next_game_session_event` when the group lookup succeeds. -/
theorem goc_found {groups : List Group} {g : Group} {groupId : Nat} (now : Nat) (db : DB)
    (hg : groups.find? (fun g' => g'.id == groupId) = some g) :
    get_or_create_next_game_session_event groups groupId now db
      = gocInsertPhaseChecked g now db (futureEvents db groupId now) := by
  unfold get_or_create_next_game_session_event
  rw [hg]

/-- The three outcomes of `get_or_create_next_game_session_event` when no
future occurrence exists: a guarded insert at the configured next time
(succeeding exactly when no stored occurrence of the group shares its date,
surfacing the integrity error otherwise), or a normal `none` when no next
time is configured. -/
theorem goc_empty_cases {groups : List Group} {g : Group} {groupId : Nat}
    (now : Nat) (db : DB)
    (hg : groups.find? (fun g' => g'.id == groupId) = some g)
    (hfut : futureEvents db groupId now = []) :
    (∀ t, g.nextGameSessionEvent now = some t →
        ((db.events.any (fun e => e.group_id == g.id
            && dayOf e.timestamp == dayOf t)) = false →
          get_or_create_next_game_session_event groups groupId now db
            = Except.ok (some ⟨db.nextId, g.id, t⟩,
                { db with events := db.events ++ [⟨db.nextId, g.id, t⟩],
                          nextId := db.nextId + 1 }))
        ∧ ((db.events.any (fun e => e.group_id == g.id
            && dayOf e.timestamp == dayOf t)) = true →
          get_or_create_next_game_session_event groups groupId now db
            = Except.error "IntegrityError: duplicate key value violates unique constraint"))
    ∧ (g.nextGameSessionEvent now = none →
        get_or_create_next_game_session_event groups groupId now db
          = Except.ok (none, db)) := by
  refine ⟨fun t hnext => ⟨fun hno => ?_, fun hdup => ?_⟩, fun hnext => ?_⟩
  · rw [goc_found now db hg, hfut]
    unfold gocInsertPhaseChecked
    rw [hnext]
    dsimp only
    unfold commitInsertUnique
    dsimp only
    rw [hno]
    rfl
  · rw [goc_found now db hg, hfut]
    unfold gocInsertPhaseChecked
    rw [hnext]
    dsimp only
    unfold commitInsertUnique
    dsimp only
    rw [hdup]
    rfl
  · rw [goc_found now db hg, hfut]
    unfold gocInsertPhaseChecked
    rw [hnext]

/-! ## Job-store lemmas -/

theorem reminderId_ne_sessionId (gid : Nat) :
    gameSessionReminderScheduleId gid ≠ gameSessionScheduleId gid := by
  intro h
  have hlen := congrArg String.length h
  simp only [gameSessionReminderScheduleId, gameSessionScheduleId,
    String.length_append] at hlen
  have e2 : "_game_session_schedule".length = 22 := rfl
  have e3 : "_game_session_reminder_schedule".length = 31 := rfl
  rw [e2, e3] at hlen
  omega

/-- `find?` by one key is unchanged by a map that only rewrites entries of a
different key (and keeps that key on them). -/
theorem find?_map_keyed_ne (s : JobStore) (id id' : String)
    (g : String × Sched → String × Sched)
    (hfix : ∀ p, (p.1 == id) = false → g p = p)
    (hkey : ∀ p, (p.1 == id) = true → ((g p).1 == id) = true)
    (h : id' ≠ id) :
    (s.map g).find? (fun p => p.1 == id') = s.find? (fun p => p.1 == id') := by
  induction s with
  | nil => rfl
  | cons p ps ih =>
    simp only [List.map_cons]
    by_cases hp : (p.1 == id) = true
    · have hgp := hkey p hp
      have h1 : ((g p).1 == id') = false := by
        rw [beq_eq_false_iff_ne, eq_of_beq hgp]
        exact fun he => h he.symm
      have h2 : (p.1 == id') = false := by
        rw [beq_eq_false_iff_ne, eq_of_beq hp]
        exact fun he => h he.symm
      rw [List.find?_cons_of_neg _ (by simp [h1]), List.find?_cons_of_neg _ (by simp [h2])]
      exact ih
    · rw [hfix p (by simpa using hp)]
      by_cases hq : (p.1 == id') = true
      · rw [List.find?_cons_of_pos (List.map g ps) hq, List.find?_cons_of_pos ps hq]
      · rw [List.find?_cons_of_neg (List.map g ps) hq, List.find?_cons_of_neg ps hq]
        exact ih

theorem lookupSched_addSchedule_ne {s : JobStore} {id id' : String} {tr : Trig} {now : Nat}
    (h : id' ≠ id) :
    lookupSched (addSchedule s id tr now) id' = lookupSched s id' := by
  unfold addSchedule lookupSched
  by_cases hf : (s.find? (fun p => p.1 == id)).isSome
  · rw [if_pos hf, find?_map_keyed_ne s id id' _ ?_ ?_ h]
    · intro p hp
      rw [if_neg (by simp [hp])]
    · intro p hp
      rw [if_pos hp]
      simp
  · rw [if_neg hf, List.find?_append]
    have hnil : List.find? (fun p => p.1 == id')
        [(id, (⟨tr, false, trigNext tr now⟩ : Sched))] = none := by
      rw [List.find?_cons_of_neg]
      · rfl
      · simp
        exact fun he => h he.symm
    rw [hnil, Option.or_none]

theorem lookupSched_addSchedule_self (s : JobStore) (id : String) (tr : Trig) (now : Nat) :
    lookupSched (addSchedule s id tr now) id = some ⟨tr, false, trigNext tr now⟩ := by
  unfold addSchedule lookupSched
  by_cases hf : (s.find? (fun p => p.1 == id)).isSome
  · rw [if_pos hf]
    induction s with
    | nil => simp at hf
    | cons p ps ih =>
      by_cases hp : (p.1 == id) = true
      · simp only [List.map_cons, if_pos hp]
        rw [List.find?_cons_of_pos _ (by simp)]
        rfl
      · simp only [List.map_cons, if_neg hp]
        rw [List.find?_cons_of_neg (List.map (fun p =>
          if p.1 == id then (id, (⟨tr, false, trigNext tr now⟩ : Sched)) else p) ps) hp]
        apply ih
        rwa [List.find?_cons_of_neg ps hp] at hf
  · rw [if_neg hf, List.find?_append]
    rw [Option.not_isSome_iff_eq_none.mp hf]
    rw [List.find?_cons_of_pos ([] : JobStore) (by simp)]
    rfl

theorem lookupSched_pause_ne {s s' : JobStore} {id id' : String} (h : id' ≠ id)
    (hp : pauseSchedule s id = Except.ok s') :
    lookupSched s' id' = lookupSched s id' := by
  unfold pauseSchedule at hp
  by_cases hf : (s.find? (fun p => p.1 == id)).isSome
  · rw [if_pos hf] at hp
    have hs' : s.map (fun p => if p.1 == id then (p.1, { p.2 with paused := true }) else p)
        = s' := by
      simpa using hp
    rw [← hs']
    unfold lookupSched
    rw [find?_map_keyed_ne s id id' _ ?_ ?_ h]
    · intro p hpf
      rw [if_neg (by simp [hpf])]
    · intro p hpf
      rw [if_pos hpf]
      exact hpf
  · rw [if_neg hf] at hp
    exact absurd hp (by simp)

theorem lookupSched_remove_ne {s : JobStore} {id id' : String} (h : id' ≠ id) :
    lookupSched (removeSchedule s id) id' = lookupSched s id' := by
  unfold removeSchedule lookupSched
  induction s with
  | nil => rfl
  | cons p ps ih =>
    by_cases hp : (p.1 == id) = true
    · have h2 : (p.1 == id') = false := by
        rw [beq_eq_false_iff_ne, eq_of_beq hp]
        exact fun he => h he.symm
      rw [List.filter_cons_of_neg (by simp [hp]), List.find?_cons_of_neg _ (by simp [h2])]
      exact ih
    · rw [List.filter_cons_of_pos (by simp [hp])]
      by_cases hq : (p.1 == id') = true
      · rw [List.find?_cons_of_pos (List.filter (fun p => !(p.1 == id)) ps) hq,
          List.find?_cons_of_pos ps hq]
      · rw [List.find?_cons_of_neg (List.filter (fun p => !(p.1 == id)) ps) hq,
          List.find?_cons_of_neg ps hq]
        exact ih

theorem allKeyNe_map {s : JobStore} {g : String × Sched → String × Sched}
    (hk : ∀ p, (g p).1 = p.1) (x : String) :
    (s.map g).all (fun q => !(q.1 == x)) = s.all (fun q => !(q.1 == x)) := by
  induction s with
  | nil => rfl
  | cons q qs ih =>
    simp only [List.map_cons, List.all_cons]
    rw [hk q, ih]

theorem storeUniq_map_keyfix {s : JobStore} {g : String × Sched → String × Sched}
    (hk : ∀ p, (g p).1 = p.1) : storeUniq (s.map g) = storeUniq s := by
  induction s with
  | nil => rfl
  | cons p ps ih =>
    simp only [List.map_cons]
    unfold storeUniq
    rw [ih, hk p, allKeyNe_map hk]

theorem storeUniq_append_new {s : JobStore} {id : String} {v : Sched}
    (hf : s.find? (fun p => p.1 == id) = none) (hu : storeUniq s = true) :
    storeUniq (s ++ [(id, v)]) = true := by
  induction s with
  | nil =>
    unfold storeUniq storeUniq
    simp
  | cons p ps ih =>
    have hphead : (p.1 == id) = false := by
      by_cases hp : (p.1 == id) = true
      · rw [List.find?_cons_of_pos ps hp] at hf
        exact absurd hf (by simp)
      · simpa using hp
    have hf' : ps.find? (fun p => p.1 == id) = none := by
      rwa [List.find?_cons_of_neg _ (by simp [hphead])] at hf
    rw [List.cons_append]
    unfold storeUniq at hu ⊢
    simp only [Bool.and_eq_true] at hu ⊢
    obtain ⟨h1, h2⟩ := hu
    refine ⟨?_, ih hf' h2⟩
    rw [List.all_append]
    simp only [Bool.and_eq_true]
    refine ⟨h1, ?_⟩
    simp only [List.all_cons, List.all_nil, Bool.and_true]
    simp only [Bool.not_eq_true']
    rw [beq_eq_false_iff_ne]
    intro he
    rw [he] at hphead
    simp at hphead

theorem countId_le_one {s : JobStore} (hu : storeUniq s = true) (id : String) :
    countId s id ≤ 1 := by
  induction s with
  | nil =>
    unfold countId
    simp
  | cons p ps ih =>
    unfold storeUniq at hu
    simp only [Bool.and_eq_true] at hu
    obtain ⟨h1, h2⟩ := hu
    unfold countId at ih ⊢
    by_cases hp : (p.1 == id) = true
    · rw [show List.filter (fun q : String × Sched => q.1 == id) (p :: ps)
          = p :: List.filter (fun q : String × Sched => q.1 == id) ps from
          List.filter_cons_of_pos hp]
      simp only [List.length_cons]
      have hnil : ps.filter (fun q => q.1 == id) = [] := by
        rw [List.filter_eq_nil_iff]
        intro q hq
        have hq1 := (List.all_eq_true.mp h1) q hq
        simp only [Bool.not_eq_true'] at hq1
        rw [beq_eq_false_iff_ne] at hq1
        simp only [Bool.not_eq_true]
        rw [beq_eq_false_iff_ne]
        rw [← eq_of_beq hp]
        exact hq1
      rw [hnil]
      simp
    · rw [show List.filter (fun q : String × Sched => q.1 == id) (p :: ps)
          = List.filter (fun q : String × Sched => q.1 == id) ps from
          List.filter_cons_of_neg hp]
      exact ih h2

theorem storeUniq_addSchedule {s : JobStore} {id : String} {tr : Trig} {now : Nat}
    (hu : storeUniq s = true) : storeUniq (addSchedule s id tr now) = true := by
  unfold addSchedule
  by_cases hf : (s.find? (fun p => p.1 == id)).isSome
  · rw [if_pos hf, storeUniq_map_keyfix]
    · exact hu
    · intro p
      by_cases hp : (p.1 == id) = true
      · rw [if_pos hp]
        exact (eq_of_beq hp).symm
      · rw [if_neg hp]
  · rw [if_neg hf]
    exact storeUniq_append_new (Option.not_isSome_iff_eq_none.mp hf) hu

theorem storeUniq_pause {s s' : JobStore} {id : String}
    (hp : pauseSchedule s id = Except.ok s') (hu : storeUniq s = true) :
    storeUniq s' = true := by
  unfold pauseSchedule at hp
  by_cases hf : (s.find? (fun p => p.1 == id)).isSome
  · rw [if_pos hf] at hp
    have hs' : s.map (fun p => if p.1 == id then (p.1, { p.2 with paused := true }) else p)
        = s' := by
      simpa using hp
    rw [← hs', storeUniq_map_keyfix]
    · exact hu
    · intro p
      by_cases hq : (p.1 == id) = true
      · rw [if_pos hq]
      · rw [if_neg hq]
  · rw [if_neg hf] at hp
    exact absurd hp (by simp)

theorem storeUniq_filter {s : JobStore} (q : String × Sched → Bool)
    (hu : storeUniq s = true) : storeUniq (s.filter q) = true := by
  induction s with
  | nil => exact hu
  | cons p ps ih =>
    unfold storeUniq at hu
    simp only [Bool.and_eq_true] at hu
    obtain ⟨h1, h2⟩ := hu
    by_cases hq : q p = true
    · rw [List.filter_cons_of_pos hq]
      unfold storeUniq
      simp only [Bool.and_eq_true]
      refine ⟨?_, ih h2⟩
      rw [List.all_eq_true]
      intro r hr
      exact (List.all_eq_true.mp h1) r (List.mem_of_mem_filter hr)
    · rw [List.filter_cons_of_neg hq]
      exact ih h2

theorem storeUniq_remove {s : JobStore} {id : String} (hu : storeUniq s = true) :
    storeUniq (removeSchedule s id) = true := by
  unfold removeSchedule
  exact storeUniq_filter _ hu

/-! ## Sync-controller phase lemmas -/

/-- What the game-session phase of `update_group_schedules` does to the
store: it returns the originally fetched schedule, touches no schedule id
other than the group's game-session schedule id, and preserves id
uniqueness. -/
theorem sessionSchedulePhase_spec {g : Group} {now : Nat} {store store2 : JobStore}
    {fetched : Option Sched}
    (h : sessionSchedulePhase g now store = Except.ok (store2, fetched)) :
    fetched = lookupSched store (gameSessionScheduleId g.id)
    ∧ (∀ id', id' ≠ gameSessionScheduleId g.id →
        lookupSched store2 id' = lookupSched store id')
    ∧ (storeUniq store = true → storeUniq store2 = true) := by
  unfold sessionSchedulePhase at h
  simp only [bind, Except.bind] at h
  generalize htrig : lookupSched store (gameSessionScheduleId g.id) = gss at h
  rcases gss with _ | sch
  · generalize hgc : g.game_session_cron_schedule = gc at h
    rcases gc with _ | c
    · simp at h
      obtain ⟨rfl, rfl⟩ := h
      exact ⟨rfl, fun id' _ => rfl, fun hu => hu⟩
    · simp at h
      obtain ⟨rfl, rfl⟩ := h
      exact ⟨rfl, fun id' hne => lookupSched_addSchedule_ne hne,
        fun hu => storeUniq_addSchedule hu⟩
  · simp only [] at h
    show fetched = some sch ∧ _
    rcases hsch : sch.trigger with c' | t'
    · rcases hnf : sch.next_fire_time with _ | t1
      · simp [hsch, hnf] at h
      · rcases hgc : g.game_session_cron_schedule with _ | c
        · simp [hsch, hnf, hgc] at h
        · rcases hcn : cronNext c now with _ | t2
          · simp [hsch, hnf, hgc, hcn] at h
          · by_cases ht : t1 = t2
            · subst ht
              simp [hsch, hnf, hgc, hcn] at h
              obtain ⟨rfl, rfl⟩ := h
              exact ⟨rfl, fun id' _ => rfl, fun hu => hu⟩
            · simp [hsch, hnf, hgc, hcn, ht] at h
              obtain ⟨rfl, rfl⟩ := h
              exact ⟨rfl, fun id' hne => lookupSched_addSchedule_ne hne,
                fun hu => storeUniq_addSchedule hu⟩
    · rcases hgc : g.game_session_cron_schedule with _ | c
      · rcases hps : pauseSchedule (removeSchedule store (gameSessionScheduleId g.id))
            (gameSessionScheduleId g.id) with e | s'
        · simp [hsch, hgc, hps] at h
        · simp [hsch, hgc, hps] at h
          obtain ⟨rfl, rfl⟩ := h
          refine ⟨rfl, ?_, ?_⟩
          · intro id' hne
            rw [lookupSched_pause_ne hne hps, lookupSched_remove_ne hne]
          · intro hu
            exact storeUniq_pause hps (storeUniq_remove hu)
      · simp [hsch, hgc] at h
        obtain ⟨rfl, rfl⟩ := h
        refine ⟨rfl, ?_, ?_⟩
        · intro id' hne
          rw [lookupSched_addSchedule_ne hne, lookupSched_remove_ne hne]
        · intro hu
          exact storeUniq_addSchedule (storeUniq_remove hu)

/-- What the reminder phase of `update_group_schedules` does to the store:
it either leaves the store unchanged or re-adds (replace policy, unpaused)
the group's reminder schedule with a one-shot date trigger at the next
occurrence's reminder time; it touches no other schedule id and preserves id
uniqueness. -/
theorem reminderSchedulePhase_spec {groups : List Group} {g : Group} {now : Nat}
    {store2 store3 : JobStore} {fetched : Option Sched} {db db1 : DB}
    (h : reminderSchedulePhase groups g now store2 fetched db = Except.ok (store3, db1)) :
    (store3 = store2
      ∨ ∃ ev, store3 = addSchedule store2 (gameSessionReminderScheduleId g.id)
          (Trig.date (GameSessionEvent.reminderDatetime g ev)) now)
    ∧ (∀ id', id' ≠ gameSessionReminderScheduleId g.id →
        lookupSched store3 id' = lookupSched store2 id')
    ∧ (storeUniq store2 = true → storeUniq store3 = true) := by
  unfold reminderSchedulePhase at h
  simp only [bind, Except.bind] at h
  split at h
  · simp at h
  · split at h
    · split at h
      · simp at h
      · rename_i ev hev
        simp at h
        obtain ⟨rfl, rfl⟩ := h
        exact ⟨Or.inr ⟨ev, rfl⟩, fun id' hne => lookupSched_addSchedule_ne hne,
          fun hu => storeUniq_addSchedule hu⟩
    · simp at h
      obtain ⟨rfl, rfl⟩ := h
      exact ⟨Or.inl rfl, fun id' _ => rfl, fun hu => hu⟩

/-- What one group's sync does to the store, assembled from the two phases. -/
theorem updateOneGroupSchedules_spec {groups : List Group} {g : Group} {now : Nat}
    {st st' : SchedState}
    (h : updateOneGroupSchedules groups g now st = Except.ok st') :
    (storeUniq st.store = true → storeUniq st'.store = true)
    ∧ (∀ id, id ≠ gameSessionScheduleId g.id → id ≠ gameSessionReminderScheduleId g.id →
        lookupSched st'.store id = lookupSched st.store id) := by
  unfold updateOneGroupSchedules at h
  simp only [bind, Except.bind] at h
  rcases hs : sessionSchedulePhase g now st.store with e | ⟨store2, fetched⟩
  · simp [hs] at h
  · rcases hr : reminderSchedulePhase groups g now store2 fetched st.db with e | ⟨store3, db1⟩
    · simp [hs, hr] at h
    · simp [hs, hr] at h
      obtain ⟨_, hfr, hur⟩ := reminderSchedulePhase_spec hr
      obtain ⟨_, hfs, hus⟩ := sessionSchedulePhase_spec hs
      subst h
      refine ⟨fun hu => hur (hus hu), ?_⟩
      intro id hne1 hne2
      rw [show (⟨store3, db1⟩ : SchedState).store = store3 from rfl]
      rw [hfr id hne2, hfs id hne1]

/-! ## Sync-iteration lemmas -/

theorem updateMany_spec (groups : List Group) (now : Nat) :
    ∀ (gs : List Group) (st st' : SchedState),
    List.foldlM (fun acc g => updateOneGroupSchedules groups g now acc) st gs
      = Except.ok st' →
    (storeUniq st.store = true → storeUniq st'.store = true)
    ∧ (∀ id, (∀ g ∈ gs, id ≠ gameSessionScheduleId g.id
          ∧ id ≠ gameSessionReminderScheduleId g.id) →
        lookupSched st'.store id = lookupSched st.store id) := by
  intro gs
  induction gs with
  | nil =>
    intro st st' h
    simp only [List.foldlM_nil, pure, Except.pure] at h
    obtain rfl : st = st' := by simpa using h
    exact ⟨fun hu => hu, fun id _ => rfl⟩
  | cons g gs ih =>
    intro st st' h
    rw [List.foldlM_cons] at h
    simp only [bind, Except.bind] at h
    rcases h1 : updateOneGroupSchedules groups g now st with e | st1
    · simp [h1] at h
    · simp only [h1] at h
      obtain ⟨hu1, hf1⟩ := updateOneGroupSchedules_spec h1
      obtain ⟨hu2, hf2⟩ := ih st1 st' h
      refine ⟨fun hu => hu2 (hu1 hu), ?_⟩
      intro id hid
      have hg := hid g (List.mem_cons_self g gs)
      rw [hf2 id (fun g' hg' => hid g' (List.mem_cons_of_mem g hg'))]
      exact hf1 id hg.1 hg.2

theorem updateGroupSchedulesIter_spec (groups : List Group) (now : Nat) :
    ∀ (n : Nat) (st st' : SchedState),
    updateGroupSchedulesIter groups now n st = Except.ok st' →
    (storeUniq st.store = true → storeUniq st'.store = true)
    ∧ (∀ id, (∀ g ∈ groups, id ≠ gameSessionScheduleId g.id
          ∧ id ≠ gameSessionReminderScheduleId g.id) →
        lookupSched st'.store id = lookupSched st.store id) := by
  intro n
  induction n with
  | zero =>
    intro st st' h
    unfold updateGroupSchedulesIter at h
    obtain rfl : st = st' := by simpa using h
    exact ⟨fun hu => hu, fun id _ => rfl⟩
  | succ n ih =>
    intro st st' h
    unfold updateGroupSchedulesIter at h
    simp only [bind, Except.bind] at h
    rcases h1 : update_group_schedules groups now st with e | st1
    · simp [h1] at h
    · simp only [h1] at h
      obtain ⟨hu2, hf2⟩ := ih st1 st' h
      unfold update_group_schedules at h1
      obtain ⟨hu1, hf1⟩ := updateMany_spec groups now groups st st1 h1
      exact ⟨fun hu => hu2 (hu1 hu), fun id hid => (hf2 id hid).trans (hf1 id hid)⟩

/-! ## Claim C4 -/

/-- C4 counterexample: a sync over an occurrence whose reminder time has
already elapsed leaves the reminder's `ScheduledJob` active (it does not
pause it): with group 1's session schedule in sync and an active reminder
job at the elapsed reminder time (day 697 11:00, before the sync instant
`nowC`), `update_group_schedules`' per-group step returns with the reminder
job still present, unpaused, re-registered with the elapsed one-shot date
trigger — contradicting "no active ScheduledJob remains for that reminder:
an existing job of that name is paused". -/
theorem C4_counterexample_elapsed_reminder_left_active :
    updateOneGroupSchedules [gEvery] gEvery nowC ⟨storeC, dbC⟩
      = Except.ok ⟨storeC, dbC⟩
    ∧ lookupSched storeC (gameSessionReminderScheduleId 1)
      = some ⟨Trig.date (mkInstant 697 660), false, some (mkInstant 697 660)⟩
    ∧ mkInstant 697 660 < nowC
    ∧ GameSessionEvent.reminderDatetime gEvery ⟨0, 1, mkInstant 700 1200⟩
      = mkInstant 697 660 :=
  ⟨rfl, rfl, by decide, rfl⟩

/-- C4 amended: the sync never pauses (nor deletes) a reminder job at all —
pausing is applied only to the game-session schedule when the group's cron
schedule is unset.  After any successful per-group sync the reminder
schedule row is either exactly what it was before the sync, or a freshly
(re-)added *unpaused* one-shot date-trigger row at the next occurrence's
reminder time — even when that time has already elapsed. -/
theorem C4_reminder_jobs_never_paused (groups : List Group) (g : Group) (now : Nat)
    (st st' : SchedState)
    (h : updateOneGroupSchedules groups g now st = Except.ok st') :
    (lookupSched st'.store (gameSessionReminderScheduleId g.id)
        = lookupSched st.store (gameSessionReminderScheduleId g.id))
    ∨ (∃ ev, lookupSched st'.store (gameSessionReminderScheduleId g.id)
        = some ⟨Trig.date (GameSessionEvent.reminderDatetime g ev), false,
            some (GameSessionEvent.reminderDatetime g ev)⟩) := by
  unfold updateOneGroupSchedules at h
  simp only [bind, Except.bind] at h
  rcases hs : sessionSchedulePhase g now st.store with e | ⟨store2, fetched⟩
  · simp [hs] at h
  · rcases hr : reminderSchedulePhase groups g now store2 fetched st.db with e | ⟨store3, db1⟩
    · simp [hs, hr] at h
    · simp [hs, hr] at h
      subst h
      obtain ⟨_, hfs, _⟩ := sessionSchedulePhase_spec hs
      obtain ⟨hcase, _, _⟩ := reminderSchedulePhase_spec hr
      have hne := reminderId_ne_sessionId g.id
      rcases hcase with rfl | ⟨ev, rfl⟩
      · left
        exact hfs _ hne
      · right
        exact ⟨ev, lookupSched_addSchedule_self store2 (gameSessionReminderScheduleId g.id)
          (Trig.date (GameSessionEvent.reminderDatetime g ev)) now⟩

/-- Witness for C4's amended statement at the concrete elapsed-reminder
scenario. -/
theorem C4_reminder_jobs_never_paused_witness :
    (lookupSched (⟨storeC, dbC⟩ : SchedState).store
        (gameSessionReminderScheduleId gEvery.id)
      = lookupSched (⟨storeC, dbC⟩ : SchedState).store
        (gameSessionReminderScheduleId gEvery.id))
    ∨ (∃ ev, lookupSched (⟨storeC, dbC⟩ : SchedState).store
        (gameSessionReminderScheduleId gEvery.id)
      = some ⟨Trig.date (GameSessionEvent.reminderDatetime gEvery ev), false,
          some (GameSessionEvent.reminderDatetime gEvery ev)⟩) :=
  C4_reminder_jobs_never_paused [gEvery] gEvery nowC ⟨storeC, dbC⟩ ⟨storeC, dbC⟩ rfl

/-! ## Claim C8 -/

/-- C8: schedule registration is idempotent.  Every job id is a
deterministic string derived from the owning group
(`group_{id}_game_session_schedule`, `group_{id}_game_session_reminder_schedule`),
jobs are registered add-with-replace keyed by that id, and running the sync
any number of times over the same entity state keeps the job store free of
duplicate ids — at most one job row per schedule id — while ids not derived
from any synced group are untouched. -/
theorem C8_idempotent_schedule_registration (groups : List Group) (now : Nat)
    (n : Nat) (st st' : SchedState)
    (hu : storeUniq st.store = true)
    (h : updateGroupSchedulesIter groups now n st = Except.ok st') :
    storeUniq st'.store = true
    ∧ (∀ id, countId st'.store id ≤ 1)
    ∧ (∀ id, (∀ g ∈ groups, id ≠ gameSessionScheduleId g.id
          ∧ id ≠ gameSessionReminderScheduleId g.id) →
        lookupSched st'.store id = lookupSched st.store id) := by
  obtain ⟨hu', hf⟩ := updateGroupSchedulesIter_spec groups now n st st' h
  have hu'' := hu' hu
  exact ⟨hu'', fun id => countId_le_one hu'' id, hf⟩

/-- Witness for C8: syncing `groups0` twice from an empty store yields the
store `storeW` with unique ids, at most one row per id, and no other id
registered. -/
theorem C8_idempotent_schedule_registration_witness :
    storeUniq stW.store = true
    ∧ (∀ id, countId stW.store id ≤ 1)
    ∧ (∀ id, (∀ g ∈ groups0, id ≠ gameSessionScheduleId g.id
          ∧ id ≠ gameSessionReminderScheduleId g.id) →
        lookupSched stW.store id
          = lookupSched (⟨[], dbEmpty⟩ : SchedState).store id) :=
  C8_idempotent_schedule_registration groups0 1000 2 ⟨[], dbEmpty⟩ stW
    (by decide) (by rfl)

/-! ## Claim C7 -/

/-- C7: when invoked with an occurrence id, the reminder dispatchers always
return normally (the result type has no failure case and every guard is a
logged no-op return): an unknown id yields the not-found no-op; an
occurrence whose timestamp is already strictly in the past yields the
already-passed no-op; an occurrence whose relevant enable flag is disabled
is skipped; and only otherwise is the notification collaborator invoked —
the food dispatcher gated on the food flag, the attendance dispatcher on
the attendance flag. -/
theorem C7_dispatcher_guards (occs : List EventOccurrence) (oid now : Nat) :
    (occs.find? (fun o => o.id == oid) = none →
        Utils.send_attendance_reminder occs oid now = DispatchResult.notFound
        ∧ Utils.send_food_reminder occs oid now = DispatchResult.notFound)
    ∧ (∀ occ, occs.find? (fun o => o.id == oid) = some occ →
        (occ.timestamp < now →
          Utils.send_attendance_reminder occs oid now = DispatchResult.alreadyPassed
          ∧ Utils.send_food_reminder occs oid now = DispatchResult.alreadyPassed)
        ∧ (¬ occ.timestamp < now →
          Utils.send_attendance_reminder occs oid now
            = (if occ.event_enable_attendance_discord_reminders
                then DispatchResult.sent else DispatchResult.skippedDisabled)
          ∧ Utils.send_food_reminder occs oid now
            = (if occ.event_enable_food_discord_reminders
                then DispatchResult.sent else DispatchResult.skippedDisabled))) := by
  constructor
  · intro hf
    unfold Utils.send_attendance_reminder Utils.send_food_reminder
    rw [hf]
    exact ⟨rfl, rfl⟩
  · intro occ hf
    unfold Utils.send_attendance_reminder Utils.send_food_reminder
    rw [hf]
    constructor
    · intro hp
      exact ⟨by simp [hp], by simp [hp]⟩
    · intro hp
      exact ⟨by simp [hp], by simp [hp]⟩

/-- Witness for C7: each guard exercised at a concrete input. -/
theorem C7_dispatcher_guards_witness :
    Utils.send_attendance_reminder occsC 2 1000 = DispatchResult.notFound
    ∧ Utils.send_attendance_reminder occsC 1 6000 = DispatchResult.alreadyPassed
    ∧ Utils.send_attendance_reminder occsC 1 1000 = DispatchResult.sent
    ∧ Utils.send_food_reminder occsC 1 1000 = DispatchResult.skippedDisabled :=
  ⟨((C7_dispatcher_guards occsC 2 1000).1 (by decide)).1,
   (((C7_dispatcher_guards occsC 1 6000).2 ⟨1, 5000, false, true⟩ (by decide)).1
      (by decide)).1,
   ((((C7_dispatcher_guards occsC 1 1000).2 ⟨1, 5000, false, true⟩ (by decide)).2
      (by decide)).1).trans (by decide),
   ((((C7_dispatcher_guards occsC 1 1000).2 ⟨1, 5000, false, true⟩ (by decide)).2
      (by decide)).2).trans (by decide)⟩

/-! ## Claim C9 -/

/-- `get_or_create_next_game_session_event` only reads a group's id and cron
schedule, so it is invariant under any group transformation preserving
those. -/
theorem goc_map_invariant (f : Group → Group)
    (hid : ∀ g, (f g).id = g.id)
    (hcron : ∀ g, (f g).game_session_cron_schedule = g.game_session_cron_schedule)
    (groups : List Group) (groupId now : Nat) (db : DB) :
    get_or_create_next_game_session_event (groups.map f) groupId now db
      = get_or_create_next_game_session_event groups groupId now db := by
  unfold get_or_create_next_game_session_event
  rw [List.find?_map]
  have hp : (fun (g : Group) => g.id == groupId) ∘ f = fun g => g.id == groupId := by
    funext g
    simp [Function.comp, hid g]
  rw [hp]
  rcases hf : groups.find? (fun g => g.id == groupId) with _ | g
  · rw [hf]
    rfl
  · rw [hf]
    show gocInsertPhaseChecked (f g) now db (futureEvents db groupId now)
      = gocInsertPhaseChecked g now db (futureEvents db groupId now)
    unfold gocInsertPhaseChecked Group.nextGameSessionEvent
    rw [hid g, hcron g]

/-- C9 counterexample: there is no per-flag reminder job to pause, and the
senders read no tracking flags.  With `track_food` disabled and
`track_attendance` enabled on group 1, the sync registers only the two
combined per-group schedules (session and combined reminder), leaves every
job unpaused, and the fired combined reminder still dispatches the food
reminder (the returned food-send list names occurrence 0) — contradicting
"pauses only the food-reminder job for that event's future occurrences". -/
theorem C9_counterexample_track_food_disabled_still_sends :
    gFood.track_food = false
    ∧ gFood.track_attendance = true
    ∧ update_group_schedules [gFood] 1000 ⟨[], dbEmpty⟩ = Except.ok ⟨storeW, dbOne⟩
    ∧ (∀ p ∈ storeW, p.2.paused = false)
    ∧ Reminders.game_session_reminder [gFood] 1 1000 dbOne
      = Except.ok (dbR, [0], [0]) :=
  ⟨rfl, rfl, rfl, by decide, rfl⟩

/-- C9 amended: the senders are mutually independent — the attendance
sender's behaviour does not depend on the food-tracking flag and the food
sender's does not depend on the attendance-tracking flag (neither reads the
other's state) — but there are no separate per-flag reminder jobs in the
store, nothing is paused when a flag is disabled, and the combined reminder
dispatches both reminders regardless of the flags. -/
theorem C9_senders_independent (groups : List Group) (groupId now : Nat)
    (db : DB) (b : Bool) :
    Reminders.send_attendance_reminder (groups.map (fun g => g.setTrackFood b))
        groupId now db
      = Reminders.send_attendance_reminder groups groupId now db
    ∧ Reminders.send_food_reminder (groups.map (fun g => g.setTrackAttendance b))
        groupId now db
      = Reminders.send_food_reminder groups groupId now db := by
  constructor
  · unfold Reminders.send_attendance_reminder
    rw [goc_map_invariant (fun g => g.setTrackFood b) (fun g => rfl) (fun g => rfl)]
  · unfold Reminders.send_food_reminder
    rw [goc_map_invariant (fun g => g.setTrackAttendance b) (fun g => rfl) (fun g => rfl)]

/-! ## Claim C10 -/

/-- C10 counterexample: the dispatch does not insert when a stale same-day
row exists.  Group 1 has no future occurrence row in `dbStale` but a
configured next-session time (1001, still on day 0); the dispatch resolves
its occurrence through the get-or-create operation, whose insert collides
with the stale day-0 row under the `(event_id, event_date)` uniqueness
constraint, so the sender propagates the integrity error: nothing is
inserted and nothing is sent — contradicting "invoking a reminder for a
group that has no future occurrence row but does have a configured
next-session time inserts a new occurrence row as a side effect of the
dispatch". -/
theorem C10_counterexample_stale_row_blocks_dispatch :
    futureEvents dbStale 1 1000 = []
    ∧ gEvery.nextGameSessionEvent 1000 = some 1001
    ∧ Reminders.send_attendance_reminder groups0 1 1000 dbStale
      = Except.error "IntegrityError: duplicate key value violates unique constraint"
    ∧ Reminders.send_food_reminder groups0 1 1000 dbStale
      = Except.error "IntegrityError: duplicate key value violates unique constraint" :=
  ⟨rfl, rfl, rfl, rfl⟩

/-- C10 amended: reminder dispatch is not read-only on domain state.  The
senders in `grug/reminders.py` resolve their occurrence through
`get_or_create_next_game_session_event`, so a dispatch for a group with no
future occurrence row but a configured next-session time inserts exactly one
new occurrence row (and records the sent message) whenever no stored
occurrence of the group shares the fire time's date; when such a stale
same-date row exists the insert's integrity error propagates to the caller
and the dispatch writes nothing and sends nothing; and with no configured
next time the dispatch returns normally without sending and without
writing. -/
theorem C10_dispatch_creates_occurrence (groups : List Group) (g : Group)
    (groupId now : Nat) (db : DB)
    (hg : groups.find? (fun g' => g'.id == groupId) = some g)
    (hfut : futureEvents db groupId now = []) :
    (∀ t, g.nextGameSessionEvent now = some t →
        ((db.events.any (fun e => e.group_id == g.id
            && dayOf e.timestamp == dayOf t)) = false →
          Reminders.send_attendance_reminder groups groupId now db
            = Except.ok ({ db with
                events := db.events ++ [⟨db.nextId, g.id, t⟩],
                nextId := db.nextId + 1,
                attendanceMessages := db.attendanceMessages ++ [(db.nextMessageId, db.nextId)],
                nextMessageId := db.nextMessageId + 1 }, [db.nextId]))
        ∧ ((db.events.any (fun e => e.group_id == g.id
            && dayOf e.timestamp == dayOf t)) = true →
          Reminders.send_attendance_reminder groups groupId now db
            = Except.error "IntegrityError: duplicate key value violates unique constraint"
          ∧ Reminders.send_food_reminder groups groupId now db
            = Except.error "IntegrityError: duplicate key value violates unique constraint"))
    ∧ (g.nextGameSessionEvent now = none →
        Reminders.send_attendance_reminder groups groupId now db = Except.ok (db, [])
        ∧ Reminders.send_food_reminder groups groupId now db = Except.ok (db, [])) := by
  refine ⟨fun t hnext => ⟨fun hno => ?_, fun hdup => ⟨?_, ?_⟩⟩, fun hnext => ⟨?_, ?_⟩⟩
  · have hgoc := ((goc_empty_cases now db hg hfut).1 t hnext).1 hno
    unfold Reminders.send_attendance_reminder
    simp only [bind, Except.bind]
    rw [hgoc]
  · have hgoc := ((goc_empty_cases now db hg hfut).1 t hnext).2 hdup
    unfold Reminders.send_attendance_reminder
    simp only [bind, Except.bind]
    rw [hgoc]
  · have hgoc := ((goc_empty_cases now db hg hfut).1 t hnext).2 hdup
    unfold Reminders.send_food_reminder
    simp only [bind, Except.bind]
    rw [hgoc]
  · have hgoc := (goc_empty_cases now db hg hfut).2 hnext
    unfold Reminders.send_attendance_reminder
    simp only [bind, Except.bind]
    rw [hgoc]
  · have hgoc := (goc_empty_cases now db hg hfut).2 hnext
    unfold Reminders.send_food_reminder
    simp only [bind, Except.bind]
    rw [hgoc]

/-- Witness for C10's amended statement at concrete inputs: dispatching for
group 1 against the empty database inserts the occurrence and records the
message; against the stale same-day row it surfaces the integrity error; for
group 2 (no schedule) nothing is sent and nothing is written. -/
theorem C10_dispatch_creates_occurrence_witness :
    Reminders.send_attendance_reminder groups0 1 1000 dbEmpty
      = Except.ok (⟨[⟨0, 1, 1001⟩], 1, [(0, 0)], [], 1⟩, [0])
    ∧ Reminders.send_food_reminder groups0 1 1000 dbStale
      = Except.error "IntegrityError: duplicate key value violates unique constraint"
    ∧ Reminders.send_attendance_reminder groups0 2 1000 dbEmpty
      = Except.ok (dbEmpty, [])
    ∧ Reminders.send_food_reminder groups0 2 1000 dbEmpty
      = Except.ok (dbEmpty, []) :=
  ⟨(((C10_dispatch_creates_occurrence groups0 gEvery 1 1000 dbEmpty (by decide)
      (by rfl)).1 1001 (by rfl)).1 (by decide)).trans (by rfl),
   (((C10_dispatch_creates_occurrence groups0 gEvery 1 1000 dbStale (by decide)
      (by rfl)).1 1001 (by rfl)).2 (by decide)).2,
   ((C10_dispatch_creates_occurrence groups0 gNone 2 1000 dbEmpty (by decide)
      (by rfl)).2 (by rfl)).1,
   ((C10_dispatch_creates_occurrence groups0 gNone 2 1000 dbEmpty (by decide)
      (by rfl)).2 (by rfl)).2⟩

/-! ## Claim C5 -/

theorem foodUniq_append {tbl : List EventFood} {r : EventFood}
    (hu : foodUniq tbl = true)
    (hnew : ∀ s ∈ tbl, ¬(s.event_id = r.event_id ∧ s.event_date = r.event_date)) :
    foodUniq (tbl ++ [r]) = true := by
  induction tbl with
  | nil => simp [foodUniq]
  | cons p ps ih =>
    rw [List.cons_append]
    unfold foodUniq at hu ⊢
    simp only [Bool.and_eq_true] at hu ⊢
    obtain ⟨h1, h2⟩ := hu
    refine ⟨?_, ih h2 (fun s hs => hnew s (List.mem_cons_of_mem p hs))⟩
    rw [List.all_append]
    simp only [Bool.and_eq_true]
    refine ⟨h1, ?_⟩
    simp only [List.all_cons, List.all_nil, Bool.and_true]
    have hpr := hnew p (List.mem_cons_self p ps)
    by_cases he : r.event_id = p.event_id
    · by_cases hd : r.event_date = p.event_date
      · exact absurd ⟨he.symm, hd.symm⟩ hpr
      · simp [hd]
    · simp [he]

theorem attendanceUniq_append {tbl : List EventAttendance} {r : EventAttendance}
    (hu : attendanceUniq tbl = true)
    (hnew : ∀ s ∈ tbl, ¬(s.event_id = r.event_id ∧ s.event_date = r.event_date)) :
    attendanceUniq (tbl ++ [r]) = true := by
  induction tbl with
  | nil => simp [attendanceUniq]
  | cons p ps ih =>
    rw [List.cons_append]
    unfold attendanceUniq at hu ⊢
    simp only [Bool.and_eq_true] at hu ⊢
    obtain ⟨h1, h2⟩ := hu
    refine ⟨?_, ih h2 (fun s hs => hnew s (List.mem_cons_of_mem p hs))⟩
    rw [List.all_append]
    simp only [Bool.and_eq_true]
    refine ⟨h1, ?_⟩
    simp only [List.all_cons, List.all_nil, Bool.and_true]
    have hpr := hnew p (List.mem_cons_self p ps)
    by_cases he : r.event_id = p.event_id
    · by_cases hd : r.event_date = p.event_date
      · exact absurd ⟨he.symm, hd.symm⟩ hpr
      · simp [hd]
    · simp [he]

/-- C5: at most one occurrence row per (event, occurrence date) — the
uniqueness enforced by the unique indexes on `(event_id, event_date)` of
`event_food` and `event_attendance` — is preserved by the operations that
create occurrence rows: `Event.get_next_food_event` and
`Event.get_next_attendance_event` insert a row only when the event has no
row of the computed next date. -/
theorem C5_occurrence_date_uniqueness (e : Event) (now nextId : Nat) :
    (∀ (tbl tbl' : List EventFood) (res : Option EventFood),
        foodUniq tbl = true →
        Event.get_next_food_event e tbl now nextId = Except.ok (res, tbl') →
        foodUniq tbl' = true)
    ∧ (∀ (tbl tbl' : List EventAttendance) (res : Option EventAttendance),
        attendanceUniq tbl = true →
        Event.get_next_attendance_event e tbl now nextId = Except.ok (res, tbl') →
        attendanceUniq tbl' = true) := by
  constructor
  · intro tbl tbl' res hu h
    unfold Event.get_next_food_event at h
    rcases htr : e.get_event_calendar_interval_trigger with _ | trig
    · simp [htr] at h
      obtain ⟨rfl, rfl⟩ := h
      exact hu
    · rcases hcn : calendarNext trig now with _ | t
      · simp [htr, hcn] at h
      · rcases hfind : (e.food tbl).find? (fun r => r.event_date == dayOf t)
            with _ | fe
        · simp [htr, hcn, hfind] at h
          obtain ⟨rfl, rfl⟩ := h
          apply foodUniq_append hu
          intro s hs hcontra
          obtain ⟨hse, hsd⟩ := hcontra
          have hse' : s.event_id = e.id := hse
          have hsd' : s.event_date = dayOf t := hsd
          have hsf : s ∈ e.food tbl := by
            unfold Event.food
            rw [List.mem_filter]
            exact ⟨hs, by simp [hse']⟩
          have hnone := List.find?_eq_none.mp hfind s hsf
          simp [hsd'] at hnone
        · simp [htr, hcn, hfind] at h
          obtain ⟨rfl, rfl⟩ := h
          exact hu
  · intro tbl tbl' res hu h
    unfold Event.get_next_attendance_event at h
    rcases htr : e.get_event_calendar_interval_trigger with _ | trig
    · simp [htr] at h
      obtain ⟨rfl, rfl⟩ := h
      exact hu
    · rcases hcn : calendarNext trig now with _ | t
      · simp [htr, hcn] at h
      · rcases hfind : (e.attendance tbl).find? (fun r => r.event_date == dayOf t)
            with _ | ae
        · simp [htr, hcn, hfind] at h
          obtain ⟨rfl, rfl⟩ := h
          apply attendanceUniq_append hu
          intro s hs hcontra
          obtain ⟨hse, hsd⟩ := hcontra
          have hse' : s.event_id = e.id := hse
          have hsd' : s.event_date = dayOf t := hsd
          have hsf : s ∈ e.attendance tbl := by
            unfold Event.attendance
            rw [List.mem_filter]
            exact ⟨hs, by simp [hse']⟩
          have hnone := List.find?_eq_none.mp hfind s hsf
          simp [hsd'] at hnone
        · simp [htr, hcn, hfind] at h
          obtain ⟨rfl, rfl⟩ := h
          exact hu

/-- Witness for C5: creating the next food and attendance occurrences of a
weekly event from empty tables yields tables satisfying the per-(event,
date) uniqueness. -/
theorem C5_occurrence_date_uniqueness_witness :
    foodUniq [⟨0, 19730, 1, none⟩] = true
    ∧ attendanceUniq [⟨0, 19730, 1⟩] = true :=
  ⟨(C5_occurrence_date_uniqueness eventW (mkInstant 19723 1020) 0).1
      [] [⟨0, 19730, 1, none⟩] (some ⟨0, 19730, 1, none⟩) (by decide) (by rfl),
   (C5_occurrence_date_uniqueness eventW (mkInstant 19723 1020) 0).2
      [] [⟨0, 19730, 1⟩] (some ⟨0, 19730, 1⟩) (by decide) (by rfl)⟩

/-! ## Claim C6 -/

/-- Subtracting whole calendar days before setting a wall-clock time
commutes with the interval arithmetic of the trigger fires. -/
theorem reminder_time_shift (s d i k tod tod' : Nat) (hd : d ≤ s) (htod : tod < 1440) :
    mkInstant (s - d + k * i) tod' = reminder_time (mkInstant (s + k * i) tod) d tod' := by
  unfold reminder_time mkInstant dayOf
  have hdiv : ((s + k * i) * 1440 + tod) / 1440 = s + k * i := by
    omega
  rw [hdiv]
  omega

/-- C6 counterexample: for a month-interval event the reminder trigger the
source builds (start shifted back `days_before` *days*, then month steps)
diverges from `reminder_time` (the occurrence date minus `days_before`
calendar days).  `eventM` starts 2024-05-01 17:00 repeating monthly; its
fire at index 1 is 2024-06-01 17:00.  Its food-reminder trigger starts
2024-04-28 11:00 and its fire at index 1 is 2024-05-28 11:00, but
subtracting 3 calendar days from the occurrence date 2024-06-01 gives
2024-05-29 11:00: the trigger fire and the claimed reminder instant differ
by a day, because April is one day shorter than May. -/
theorem C6_counterexample_month_interval_diverges :
    eventM.get_event_calendar_interval_trigger = some etrM
    ∧ eventM.get_food_reminder_calendar_interval_trigger = some ftrM
    ∧ civilFromDays (dayOf (etrM.fireAt 1)) = (2024, 6, 1)
    ∧ civilFromDays (dayOf (ftrM.fireAt 1)) = (2024, 5, 28)
    ∧ civilFromDays (dayOf (reminder_time (etrM.fireAt 1) 3 660)) = (2024, 5, 29)
    ∧ ftrM.fireAt 1 ≠ reminder_time (etrM.fireAt 1) 3 660 :=
  ⟨rfl, rfl, by decide, by decide, by decide, by decide⟩

/-- C6 amended: for *day/week*-interval events the reminder triggers the
source builds (event trigger with start shifted back `days_before` days and
wall-clock time replaced by the reminder time-of-day) fire exactly at
`reminder_time(occurrence_time, days_before, time_of_day)` — the instant
obtained by subtracting `days_before` *calendar days* from the occurrence's
date and setting the wall-clock time to the reminder time-of-day — and the
equality is preserved by conversion to an absolute instant under any
timezone-offset function (in particular one with a DST transition between
the two dates), for every fire index `k`.  For month-interval events the
shifted-start construction provably diverges from this calendar-day
subtraction, so the equality is stated for the day/week interval case. -/
theorem C6_reminder_time_correct (e : Event) (k : Nat)
    (hiv : e.event_schedule_repeat_interval = some RepeatInterval.days
        ∨ e.event_schedule_repeat_interval = some RepeatInterval.weeks)
    (hh : e.event_schedule_start_hour < 24)
    (hm : e.event_schedule_start_minute < 60)
    (hdf : e.food_reminder_days_before_event ≤ e.event_schedule_start_day)
    (hda : e.attendance_reminder_days_before_event ≤ e.event_schedule_start_day)
    (etr ftr atr : CalendarIntervalTrig)
    (he : e.get_event_calendar_interval_trigger = some etr)
    (hf : e.get_food_reminder_calendar_interval_trigger = some ftr)
    (ha : e.get_attendance_reminder_calendar_interval_trigger = some atr) :
    (ftr.fireAt k
        = reminder_time (etr.fireAt k) e.food_reminder_days_before_event
            (e.food_reminder_hour * 60 + e.food_reminder_minute)
      ∧ ∀ offsetOn : Nat → Int,
          toAbsolute offsetOn (ftr.fireAt k)
            = toAbsolute offsetOn (reminder_time (etr.fireAt k)
                e.food_reminder_days_before_event
                (e.food_reminder_hour * 60 + e.food_reminder_minute)))
    ∧ (atr.fireAt k
        = reminder_time (etr.fireAt k) e.attendance_reminder_days_before_event
            (e.attendance_reminder_hour * 60 + e.attendance_reminder_minute)
      ∧ ∀ offsetOn : Nat → Int,
          toAbsolute offsetOn (atr.fireAt k)
            = toAbsolute offsetOn (reminder_time (etr.fireAt k)
                e.attendance_reminder_days_before_event
                (e.attendance_reminder_hour * 60 + e.attendance_reminder_minute))) := by
  unfold Event.get_event_calendar_interval_trigger at he
  unfold Event.get_food_reminder_calendar_interval_trigger at hf
  unfold Event.get_attendance_reminder_calendar_interval_trigger at ha
  unfold Event.getCalendarIntervalTrigger at he hf ha
  have htod : e.event_schedule_start_hour * 60 + e.event_schedule_start_minute < 1440 := by
    omega
  rcases hiv with hiv | hiv
  · rw [hiv] at he hf ha
    simp at he hf ha
    subst he
    subst hf
    subst ha
    refine ⟨⟨?_, ?_⟩, ⟨?_, ?_⟩⟩
    · exact reminder_time_shift e.event_schedule_start_day
        e.food_reminder_days_before_event (e.event_schedule_repeat_every + 7 * 0) k
        (e.event_schedule_start_hour * 60 + e.event_schedule_start_minute)
        (e.food_reminder_hour * 60 + e.food_reminder_minute) hdf htod
    · intro offsetOn
      exact congrArg (toAbsolute offsetOn) (reminder_time_shift
        e.event_schedule_start_day e.food_reminder_days_before_event
        (e.event_schedule_repeat_every + 7 * 0) k
        (e.event_schedule_start_hour * 60 + e.event_schedule_start_minute)
        (e.food_reminder_hour * 60 + e.food_reminder_minute) hdf htod)
    · exact reminder_time_shift e.event_schedule_start_day
        e.attendance_reminder_days_before_event (e.event_schedule_repeat_every + 7 * 0) k
        (e.event_schedule_start_hour * 60 + e.event_schedule_start_minute)
        (e.attendance_reminder_hour * 60 + e.attendance_reminder_minute) hda htod
    · intro offsetOn
      exact congrArg (toAbsolute offsetOn) (reminder_time_shift
        e.event_schedule_start_day e.attendance_reminder_days_before_event
        (e.event_schedule_repeat_every + 7 * 0) k
        (e.event_schedule_start_hour * 60 + e.event_schedule_start_minute)
        (e.attendance_reminder_hour * 60 + e.attendance_reminder_minute) hda htod)
  · rw [hiv] at he hf ha
    simp at he hf ha
    subst he
    subst hf
    subst ha
    refine ⟨⟨?_, ?_⟩, ⟨?_, ?_⟩⟩
    · exact reminder_time_shift e.event_schedule_start_day
        e.food_reminder_days_before_event (0 + 7 * e.event_schedule_repeat_every) k
        (e.event_schedule_start_hour * 60 + e.event_schedule_start_minute)
        (e.food_reminder_hour * 60 + e.food_reminder_minute) hdf htod
    · intro offsetOn
      exact congrArg (toAbsolute offsetOn) (reminder_time_shift
        e.event_schedule_start_day e.food_reminder_days_before_event
        (0 + 7 * e.event_schedule_repeat_every) k
        (e.event_schedule_start_hour * 60 + e.event_schedule_start_minute)
        (e.food_reminder_hour * 60 + e.food_reminder_minute) hdf htod)
    · exact reminder_time_shift e.event_schedule_start_day
        e.attendance_reminder_days_before_event (0 + 7 * e.event_schedule_repeat_every) k
        (e.event_schedule_start_hour * 60 + e.event_schedule_start_minute)
        (e.attendance_reminder_hour * 60 + e.attendance_reminder_minute) hda htod
    · intro offsetOn
      exact congrArg (toAbsolute offsetOn) (reminder_time_shift
        e.event_schedule_start_day e.attendance_reminder_days_before_event
        (0 + 7 * e.event_schedule_repeat_every) k
        (e.event_schedule_start_hour * 60 + e.event_schedule_start_minute)
        (e.attendance_reminder_hour * 60 + e.attendance_reminder_minute) hda htod)

/-- Witness for C6 at the concrete event of 2024-03-15 17:00: the food
reminder fires at local 2024-03-12 11:00 (3 calendar days earlier at 11:00),
also after conversion with a timezone whose DST transition (day 19796) lies
between the two dates. -/
theorem C6_reminder_time_correct_witness :
    ftrDST.fireAt 0 = reminder_time (etrDST.fireAt 0) 3 660
    ∧ toAbsolute offDST (ftrDST.fireAt 0)
      = toAbsolute offDST (reminder_time (etrDST.fireAt 0) 3 660)
    ∧ civilFromDays (dayOf (etrDST.fireAt 0)) = (2024, 3, 15)
    ∧ civilFromDays (dayOf (ftrDST.fireAt 0)) = (2024, 3, 12)
    ∧ ¬ offDST (dayOf (ftrDST.fireAt 0)) = offDST (dayOf (etrDST.fireAt 0)) :=
  ⟨(C6_reminder_time_correct eventDST 0 (Or.inr rfl) (by decide) (by decide)
      (by decide) (by decide) etrDST ftrDST atrDST rfl rfl rfl).1.1,
   (C6_reminder_time_correct eventDST 0 (Or.inr rfl) (by decide) (by decide)
      (by decide) (by decide) etrDST ftrDST atrDST rfl rfl rfl).1.2 offDST,
   by decide, by decide, by decide⟩

/-! ## Claim C3 -/

/-- C3: `next_fire_time(rule, reference)` returns, for a cron rule, the next
timestamp strictly after the reference matching all five cron fields (a
reference falling exactly on a fire time yields the following fire time,
never the reference itself); for a calendar-interval rule with a nonzero
interval (a day, week or month component) it returns the minimal fire
`start + k * interval` strictly greater than the reference, whose date lies
within the optional end boundary, and `none` only when every fire strictly
after the reference lies past that boundary; concretely, `0 17 * * 0` from
Monday 2024-01-01 10:00 fires Sunday 2024-01-07 17:00, from Sunday
2024-01-07 17:00 exactly it fires Sunday 2024-01-14 17:00 (strictly after,
never the reference), and the monthly interval started 2024-05-01 17:00,
referenced at that very instant, fires 2024-06-01 17:00.  The function is
pure and deterministic by construction: it is a Lean function of the rule
and reference alone. -/
theorem C3_next_fire_time_correct :
    (∀ c ref t, next_fire_time (RecurrenceRule.cron c) ref = some t →
        ref < t ∧ c.cmatches t = true ∧ ∀ u, ref < u → u < t → c.cmatches u = false)
    ∧ (∀ tr ref, tr.intervalDays ≠ 0 ∨ tr.months ≠ 0 →
        (∀ t, next_fire_time (RecurrenceRule.calendar tr) ref = some t →
            ref < t
            ∧ (∃ k, t = tr.fireAt k ∧ ∀ e, tr.endDay = some e → tr.fireDay k ≤ e)
            ∧ ∀ j, ref < tr.fireAt j → t ≤ tr.fireAt j)
        ∧ (next_fire_time (RecurrenceRule.calendar tr) ref = none →
            ∃ e, tr.endDay = some e ∧ ∀ j, ref < tr.fireAt j → e < tr.fireDay j))
    ∧ next_fire_time (RecurrenceRule.cron sundayCron) mon20240101at1000
        = some sun20240107at1700
    ∧ next_fire_time (RecurrenceRule.cron sundayCron) sun20240107at1700
        = some sun20240114at1700
    ∧ next_fire_time (RecurrenceRule.calendar monthlyTrig) (mkInstant 19844 1020)
        = some (mkInstant 19875 1020)
    ∧ civilFromDays (dayOf mon20240101at1000) = (2024, 1, 1)
    ∧ dowOf mon20240101at1000 = 1
    ∧ civilFromDays (dayOf sun20240107at1700) = (2024, 1, 7)
    ∧ dowOf sun20240107at1700 = 0
    ∧ hourOf sun20240107at1700 = 17
    ∧ minuteOf sun20240107at1700 = 0
    ∧ civilFromDays (dayOf sun20240114at1700) = (2024, 1, 14)
    ∧ civilFromDays 19844 = (2024, 5, 1)
    ∧ civilFromDays 19875 = (2024, 6, 1) := by
  refine ⟨fun c ref t h => cronNext_sound h,
    fun tr ref hi => calendarNext_sound hi ref,
    ?_, ?_, ?_, by decide, by decide, by decide, by decide, by decide, by decide,
    by decide, by decide, by decide⟩
  · rfl
  · rfl
  · rfl

/-- Witness for C3 at concrete inputs: the Sunday-cron fire is strictly
after the Monday reference and matches the expression; the biweekly calendar
interval's next fire after 2024-01-10 (namely 2024-01-15 00:00) is strictly
after the reference and is a fire of the trigger; and the monthly interval's
next fire referenced exactly at the 2024-05-01 fire is strictly after the
reference and is a fire of the trigger. -/
theorem C3_next_fire_time_correct_witness :
    (mon20240101at1000 < sun20240107at1700
      ∧ sundayCron.cmatches sun20240107at1700 = true)
    ∧ (mkInstant 19732 0 < mkInstant 19737 0
      ∧ ∃ k, mkInstant 19737 0 = biweeklyTrig.fireAt k
          ∧ ∀ e, biweeklyTrig.endDay = some e → biweeklyTrig.fireDay k ≤ e)
    ∧ (mkInstant 19844 1020 < mkInstant 19875 1020
      ∧ ∃ k, mkInstant 19875 1020 = monthlyTrig.fireAt k
          ∧ ∀ e, monthlyTrig.endDay = some e → monthlyTrig.fireDay k ≤ e) :=
  ⟨⟨(C3_next_fire_time_correct.1 sundayCron mon20240101at1000 sun20240107at1700
      C3_next_fire_time_correct.2.2.1).1,
    (C3_next_fire_time_correct.1 sundayCron mon20240101at1000 sun20240107at1700
      C3_next_fire_time_correct.2.2.1).2.1⟩,
   ⟨((C3_next_fire_time_correct.2.1 biweeklyTrig (mkInstant 19732 0) (by decide)).1
      (mkInstant 19737 0) (by decide)).1,
    ((C3_next_fire_time_correct.2.1 biweeklyTrig (mkInstant 19732 0) (by decide)).1
      (mkInstant 19737 0) (by decide)).2.1⟩,
   ⟨((C3_next_fire_time_correct.2.1 monthlyTrig (mkInstant 19844 1020) (by decide)).1
      (mkInstant 19875 1020) C3_next_fire_time_correct.2.2.2.2.1).1,
    ((C3_next_fire_time_correct.2.1 monthlyTrig (mkInstant 19844 1020) (by decide)).1
      (mkInstant 19875 1020) C3_next_fire_time_correct.2.2.2.2.1).2.1⟩⟩

/-! ## Claim C1 -/

/-- C1 counterexample: the insert is not unconditional.  With group 1 on an
every-minute rule, a database holding only a *past* occurrence on day 0
(timestamp 999), and `now = 1000`: no future occurrence exists, the rule's
next fire time is 1001 — on day 0 again — and the insert collides with the
stale row under the `(event_id, event_date)` uniqueness constraint (the
future-occurrence query filters on timestamp, not date), so
`get_or_create_next_game_session_event` surfaces the integrity error instead
of inserting an occurrence — contradicting "when none exists it computes the
next fire time ... and inserts exactly one new occurrence at that
date/time". -/
theorem C1_counterexample_stale_same_day_row :
    futureEvents dbStale 1 1000 = []
    ∧ gEvery.nextGameSessionEvent 1000 = some 1001
    ∧ dayOf 999 = dayOf 1001
    ∧ get_or_create_next_game_session_event groups0 1 1000 dbStale
      = Except.error "IntegrityError: duplicate key value violates unique constraint" :=
  ⟨rfl, rfl, rfl, rfl⟩

/-- C1 amended: `get_or_create_next_game_session_event` returns the earliest
existing future occurrence — earliest by date, then time, which coincides
with timestamp order — and creates nothing when one exists; when none exists
and the group's next session time (modelled from the spec as the next fire
of its recurrence rule relative to now) is configured, the insert is guarded
by the `(event_id, event_date)` uniqueness constraint: if no stored
occurrence of the group shares the fire time's date, exactly one new
occurrence is inserted and returned, and otherwise the integrity error
propagates to the caller (the source has no handler around the insert); and
when the rule yields no future time it returns `none` as a normal
(`Except.ok`) outcome with the database unchanged. -/
theorem C1_get_or_create_next_occurrence (groups : List Group) (g : Group)
    (groupId now : Nat) (db : DB)
    (hg : groups.find? (fun g' => g'.id == groupId) = some g) :
    (∀ e rest, futureEvents db groupId now = e :: rest →
        get_or_create_next_game_session_event groups groupId now db
          = Except.ok (some e, db)
        ∧ e ∈ db.events ∧ e.group_id = groupId ∧ now ≤ e.timestamp
        ∧ ∀ x ∈ db.events, x.group_id = groupId → now ≤ x.timestamp →
            dayOf e.timestamp < dayOf x.timestamp
            ∨ (dayOf e.timestamp = dayOf x.timestamp
                ∧ todOf e.timestamp ≤ todOf x.timestamp))
    ∧ (∀ t, futureEvents db groupId now = [] → g.nextGameSessionEvent now = some t →
        ((db.events.any (fun e => e.group_id == g.id
            && dayOf e.timestamp == dayOf t)) = false →
          get_or_create_next_game_session_event groups groupId now db
            = Except.ok (some ⟨db.nextId, g.id, t⟩,
                { db with events := db.events ++ [⟨db.nextId, g.id, t⟩],
                          nextId := db.nextId + 1 }))
        ∧ ((db.events.any (fun e => e.group_id == g.id
            && dayOf e.timestamp == dayOf t)) = true →
          get_or_create_next_game_session_event groups groupId now db
            = Except.error "IntegrityError: duplicate key value violates unique constraint"))
    ∧ (futureEvents db groupId now = [] → g.nextGameSessionEvent now = none →
        get_or_create_next_game_session_event groups groupId now db
          = Except.ok (none, db)) := by
  refine ⟨?_, ?_, ?_⟩
  · intro e rest hfut
    obtain ⟨⟨he1, he2, he3⟩, hmin⟩ := futureEvents_cons hfut
    refine ⟨?_, he1, he2, he3, ?_⟩
    · rw [goc_found now db hg, hfut]
      rfl
    · intro x hx hx1 hx2
      have hle := hmin x hx hx1 hx2
      rw [instant_le_iff_date_time_lex] at hle
      exact hle
  · intro t hfut hnext
    exact (goc_empty_cases now db hg hfut).1 t hnext
  · intro hfut hnext
    exact (goc_empty_cases now db hg hfut).2 hnext

/-- Witness for C1's amended statement at concrete inputs: with two stored
future occurrences the one with the earlier timestamp is returned and
nothing is created; from an empty database one occurrence is inserted at the
rule's next fire time; against the stale same-day row the integrity error
surfaces; for the group without a rule the call returns `none` and leaves
the database untouched. -/
theorem C1_get_or_create_next_occurrence_witness :
    get_or_create_next_game_session_event groups0 1 1000 dbTwo
      = Except.ok (some ⟨1, 1, 1500⟩, dbTwo)
    ∧ get_or_create_next_game_session_event groups0 1 1000 dbEmpty
      = Except.ok (some ⟨0, 1, 1001⟩, dbOne)
    ∧ get_or_create_next_game_session_event groups0 1 1000 dbStale
      = Except.error "IntegrityError: duplicate key value violates unique constraint"
    ∧ get_or_create_next_game_session_event groups0 2 1000 dbEmpty
      = Except.ok (none, dbEmpty) :=
  ⟨((C1_get_or_create_next_occurrence groups0 gEvery 1 1000 dbTwo (by decide)).1
      ⟨1, 1, 1500⟩ [⟨0, 1, 2000⟩] (by decide)).1,
   (((C1_get_or_create_next_occurrence groups0 gEvery 1 1000 dbEmpty (by decide)).2.1
      1001 (by decide) (by decide)).1 (by decide)).trans (by rfl),
   ((C1_get_or_create_next_occurrence groups0 gEvery 1 1000 dbStale (by decide)).2.1
      1001 (by decide) (by decide)).2 (by decide),
   (C1_get_or_create_next_occurrence groups0 gNone 2 1000 dbEmpty (by decide)).2.2
      (by decide) (by decide)⟩

/-! ## Claim C2 -/

/-- A configured next session time is strictly in the future. -/
theorem nextGameSessionEvent_future {g : Group} {now t : Nat}
    (h : g.nextGameSessionEvent now = some t) : now < t := by
  unfold Group.nextGameSessionEvent at h
  rcases hc : g.game_session_cron_schedule with _ | c
  · rw [hc] at h
    simp at h
  · rw [hc] at h
    simp at h
    exact (cronNext_sound h).1

/-- C2 counterexample: the concurrent-duplicate scenario is not recovered by
re-reading.  Caller A evaluates the future-occurrence query against
`dbEmpty` (no rows); caller B then runs the whole operation against
`dbEmpty`, inserting the occurrence at the rule's next fire time 1001; when
caller A's insert phase subsequently commits against the changed database
under the (event, date) uniqueness constraint, the integrity error surfaces
to caller A — contradicting the claim that a concurrent duplicate insert
attempt is caught and resolved and that no uniqueness-constraint violation
surfaces to any caller. -/
theorem C2_counterexample_concurrent_insert_fails :
    get_or_create_next_game_session_event groups0 1 1000 dbEmpty
      = Except.ok (some ⟨0, 1, 1001⟩, dbOne)
    ∧ gocInsertPhaseChecked gEvery 1000 dbOne (futureEvents dbEmpty 1 1000)
      = Except.error "IntegrityError: duplicate key value violates unique constraint" :=
  ⟨rfl, rfl⟩

/-- C2 amended: the operation is insert-or-fail, not insert-then-recover.
Sequentially it is idempotent — after a successful call returning an
occurrence, a second call returns an existing future occurrence and leaves
the database unchanged — but the source wraps the insert in no exception
handler, so under the (event, date) uniqueness constraint an insert that
races a concurrent writer of the same (group, date) propagates the
integrity error to its caller. -/
theorem C2_insert_or_fail (groups : List Group) (g : Group)
    (groupId now : Nat) (db db' : DB) (ev : GameSessionEvent)
    (hg : groups.find? (fun g' => g'.id == groupId) = some g)
    (h : get_or_create_next_game_session_event groups groupId now db
      = Except.ok (some ev, db')) :
    (∃ e', get_or_create_next_game_session_event groups groupId now db'
        = Except.ok (some e', db'))
    ∧ (∀ t, g.nextGameSessionEvent now = some t →
        (db'.events.any (fun e => e.group_id == g.id
          && dayOf e.timestamp == dayOf t)) = true →
        gocInsertPhaseChecked g now db' []
          = Except.error "IntegrityError: duplicate key value violates unique constraint") := by
  constructor
  · have hgid : g.id = groupId := by
      have hfind := List.find?_some hg
      simpa using hfind
    have hev : ∃ x ∈ db'.events, x.group_id = groupId ∧ now ≤ x.timestamp := by
      rw [goc_found now db hg] at h
      rcases hfut : futureEvents db groupId now with _ | ⟨e, rest⟩
      · rw [hfut] at h
        unfold gocInsertPhaseChecked at h
        rcases hnext : g.nextGameSessionEvent now with _ | t
        · rw [hnext] at h
          simp at h
        · rw [hnext] at h
          by_cases hdup : (db.events.any (fun e => e.group_id == g.id
              && dayOf e.timestamp == dayOf t)) = true
          · simp [commitInsertUnique, hdup, Except.map] at h
          · simp only [Bool.not_eq_true] at hdup
            simp [commitInsertUnique, hdup, Except.map] at h
            obtain ⟨rfl, rfl⟩ := h
            refine ⟨⟨db.nextId, g.id, t⟩, ?_, hgid, ?_⟩
            · simp
            · exact Nat.le_of_lt (nextGameSessionEvent_future hnext)
      · rw [hfut] at h
        unfold gocInsertPhaseChecked at h
        simp at h
        obtain ⟨hev', hdb'⟩ := h
        obtain ⟨⟨he1, he2, he3⟩, _⟩ := futureEvents_cons hfut
        exact ⟨e, by rw [← hdb']; exact he1, he2, he3⟩
    obtain ⟨x, hx, hx1, hx2⟩ := hev
    have hne := futureEvents_ne_nil hx hx1 hx2
    rcases hfut' : futureEvents db' groupId now with _ | ⟨e', rest'⟩
    · exact absurd hfut' hne
    · refine ⟨e', ?_⟩
      rw [goc_found now db' hg, hfut']
      rfl
  · intro t hnext hdup
    unfold gocInsertPhaseChecked
    rw [hnext]
    show (commitInsertUnique db' ⟨db'.nextId, g.id, t⟩).map
        (fun db'' => (some (⟨db'.nextId, g.id, t⟩ : GameSessionEvent), db''))
      = Except.error "IntegrityError: duplicate key value violates unique constraint"
    unfold commitInsertUnique
    have hdup' : (db'.events.any (fun e =>
        e.group_id == (⟨db'.nextId, g.id, t⟩ : GameSessionEvent).group_id
        && dayOf e.timestamp == dayOf (⟨db'.nextId, g.id, t⟩ : GameSessionEvent).timestamp))
        = true := hdup
    rw [if_pos hdup']
    rfl

/-- Witness for C2's amended statement at concrete inputs: after the insert
into the empty database, a second sequential call returns an existing
occurrence with the database unchanged, and the constraint-checked insert
phase against the already-populated database surfaces the integrity error. -/
theorem C2_insert_or_fail_witness :
    (∃ e', get_or_create_next_game_session_event groups0 1 1000 dbOne
        = Except.ok (some e', dbOne))
    ∧ gocInsertPhaseChecked gEvery 1000 dbOne []
        = Except.error "IntegrityError: duplicate key value violates unique constraint" :=
  ⟨(C2_insert_or_fail groups0 gEvery 1 1000 dbEmpty dbOne ⟨0, 1, 1001⟩
      (by decide) (by rfl)).1,
   (C2_insert_or_fail groups0 gEvery 1 1000 dbEmpty dbOne ⟨0, 1, 1001⟩
      (by decide) (by rfl)).2 1001 (by decide) (by decide)⟩



end Grug
